import Mathlib

/-!
Java schema generator of the Athenz RDL model (`javaschema.go`).

A shallow embedding of `rdl/rdl-gen-athenz-java-model/javaschema.go`.

* Go strings are Lean `String`s.  Go orders strings bytewise; on well-formed
  UTF-8 that order is the order of the code points, which is the order of
  Lean strings.
* A pointer that the source tests against `nil` (or that is the payload of a
  tagged `rdl.Type`) is an `Option`.  The elements of slices and the values of
  maps are taken to be non-nil; the rendering of a type is embedded a second
  time with the elements of `Fields` and `Elements` as pointers (the names that
  end in `Ptr`), for the statement that it never fails.
* A function that can dereference a nil payload returns `Option String`;
  `none` is the run-time panic.
* `fmt.Sprintf` is written out as the concatenation it performs.
* The Go field `Type` is written `Type_`, and the Go type `rdl.Type` is `RdlType`.
-/

namespace JavaSchema

/-! ## Formatting verbs of package `fmt` -/

/-- Printable runes (`unicode.IsPrint`): exact on ASCII and Latin-1; a rune above
U+00FF is taken to be printable.  The table of Go also holds runes above U+00FF
that are not printable (U+200B, U+2028, U+FEFF and the private-use runes among
them), which `%q` escapes; on a string with such a rune `goQuote` differs from
`%q`.  No theorem rests on the value of `goQuote`. -/
def isPrint (r : Char) : Bool :=
  if r.toNat < 0x20 then false
  else if r.toNat < 0x7f then true
  else if r.toNat < 0xa1 then false
  else if r.toNat = 0xad then false
  else true

/-- Lower-case hexadecimal digits of `n`, most significant first, `width` of them. -/
def hexDigits : Nat → Nat → List Char
  | 0, _ => []
  | width + 1, n => hexDigits width (n / 16) ++ [Nat.digitChar (n % 16)]

/-- Escaped form of one rune inside a double-quoted Go string
(`strconv.appendEscapedRune` with quote `"`). -/
def appendEscapedRune (r : Char) : List Char :=
  let bs := Char.ofNat 92
  if r.toNat = 34 ∨ r.toNat = 92 then [bs, r]
  else if isPrint r then [r]
  else if r.toNat = 7 then [bs, Char.ofNat 97]
  else if r.toNat = 8 then [bs, Char.ofNat 98]
  else if r.toNat = 12 then [bs, Char.ofNat 102]
  else if r.toNat = 10 then [bs, Char.ofNat 110]
  else if r.toNat = 13 then [bs, Char.ofNat 114]
  else if r.toNat = 9 then [bs, Char.ofNat 116]
  else if r.toNat = 11 then [bs, Char.ofNat 118]
  else if r.toNat < 0x20 ∨ r.toNat = 0x7f then bs :: Char.ofNat 120 :: hexDigits 2 r.toNat
  else if r.toNat < 0x10000 then bs :: Char.ofNat 117 :: hexDigits 4 r.toNat
  else bs :: Char.ofNat 85 :: hexDigits 8 r.toNat

/-- The verb `%q` on a string (`strconv.Quote`): the double-quoted, escaped form. -/
def goQuote (s : String) : String :=
  String.mk (Char.ofNat 34 :: (s.data.flatMap appendEscapedRune ++ [Char.ofNat 34]))

/-- The verb `%v` on a `bool`. -/
def fmtBool (b : Bool) : String :=
  if b then "true" else "false"

/-- The verb `%d` on an integer. -/
def fmtInt (n : Int) : String :=
  toString n

/-- A dynamic value (`interface{}`), as far as the generator looks at it: it is
only ever rendered with `fmt.Sprint` or `%v`.  A value that is not a string,
an integer or a boolean is kept as the text `fmt` renders for it. -/
inductive Value where
  | str (s : String)
  | int (n : Int)
  | bool (b : Bool)
  | other (text : String)
  deriving DecidableEq, Repr

/-- Rendering of a value by `fmt.Sprint(v)`, which is the verb `%v` on it. -/
def sprint : Value → String
  | .str s => s
  | .int n => fmtInt n
  | .bool b => fmtBool b
  | .other text => text

/-- Sorting by `sort.Strings`: the list in increasing order, two strings being
compared as the sequences of their characters. -/
def sortStrings (l : List String) : List String :=
  l.insertionSort (fun a b => a.toList ≤ b.toList)

/-! ## Data model of package `rdl` (the fields the generator reads) -/

/-- The tag of an `rdl.Type`; `other` is any tag outside the ten named ones. -/
inductive TypeVariant where
  | BaseType
  | StructTypeDef
  | MapTypeDef
  | ArrayTypeDef
  | EnumTypeDef
  | UnionTypeDef
  | StringTypeDef
  | BytesTypeDef
  | NumberTypeDef
  | AliasTypeDef
  | other (tag : Int)
  deriving DecidableEq, Repr

/-- The base types the generator names; `other` is any other `rdl.BaseType`. -/
inductive BaseType where
  | Bool
  | Int8
  | Int16
  | Int32
  | Int64
  | Float32
  | Float64
  | String
  | Timestamp
  | Symbol
  | UUID
  | other (tag : Int)
  deriving DecidableEq, Repr

/-- The tag of an `rdl.Number`. -/
inductive NumberVariant where
  | Int32
  | Int64
  | Float64
  | other (tag : Int)
  deriving DecidableEq, Repr

/-- A numeric bound (`rdl.Number`); a `float64` is kept as the text `fmt.Sprint`
renders for it. -/
structure Number where
  Variant : NumberVariant
  Int32 : Option Int
  Int64 : Option Int
  Float64 : Option String
  deriving DecidableEq, Repr

/-- A field of a struct (`rdl.StructFieldDef`). -/
structure StructFieldDef where
  Name : String
  Type_ : String
  Optional : Bool
  Default : Option Value
  Comment : String
  Items : String
  Keys : String
  deriving DecidableEq, Repr

/-- A struct type definition (`rdl.StructTypeDef`). -/
structure StructTypeDef where
  Type_ : String
  Name : String
  Comment : String
  Fields : List StructFieldDef
  deriving DecidableEq, Repr

/-- An element of an enum (`rdl.EnumElementDef`). -/
structure EnumElementDef where
  Symbol : String
  Comment : String
  deriving DecidableEq, Repr

/-- An enum type definition (`rdl.EnumTypeDef`). -/
structure EnumTypeDef where
  Name : String
  Comment : String
  Elements : List EnumElementDef
  deriving DecidableEq, Repr

/-- A string type definition (`rdl.StringTypeDef`). -/
structure StringTypeDef where
  Name : String
  Comment : String
  Pattern : String
  MinSize : Option Int
  MaxSize : Option Int
  deriving DecidableEq, Repr

/-- A number type definition (`rdl.NumberTypeDef`). -/
structure NumberTypeDef where
  Type_ : String
  Name : String
  Comment : String
  Min : Option Number
  Max : Option Number
  deriving DecidableEq, Repr

/-- A union type definition (`rdl.UnionTypeDef`). -/
structure UnionTypeDef where
  Name : String
  Comment : String
  Variants : List String
  deriving DecidableEq, Repr

/-- A map, array, bytes or alias type definition: the generator reads its name. -/
structure NamedTypeDef where
  Name : String
  deriving DecidableEq, Repr

/-- A type of the schema (`rdl.Type`): a tag and one pointer per variant. -/
structure RdlType where
  Variant : TypeVariant
  BaseType : Option BaseType
  StructTypeDef : Option StructTypeDef
  MapTypeDef : Option NamedTypeDef
  ArrayTypeDef : Option NamedTypeDef
  EnumTypeDef : Option EnumTypeDef
  UnionTypeDef : Option UnionTypeDef
  StringTypeDef : Option StringTypeDef
  BytesTypeDef : Option NamedTypeDef
  NumberTypeDef : Option NumberTypeDef
  AliasTypeDef : Option NamedTypeDef
  deriving DecidableEq, Repr

/-- The type registry (`rdl.TypeRegistry`): `FindType` gives the type of a name,
or nil. -/
structure TypeRegistry where
  FindType : String → Option RdlType

/-- An input of a resource (`rdl.ResourceInput`). -/
structure ResourceInput where
  Name : String
  Type_ : String
  Comment : String
  PathParam : Bool
  QueryParam : String
  Header : String
  Default : Option Value
  deriving DecidableEq, Repr

/-- An output of a resource (`rdl.ResourceOutput`). -/
structure ResourceOutput where
  Name : String
  Type_ : String
  Header : String
  Comment : String
  deriving DecidableEq, Repr

/-- The authorization of a resource (`rdl.ResourceAuth`). -/
structure ResourceAuth where
  Authenticate : Bool
  Action : String
  Resource : String
  Domain : String
  deriving DecidableEq, Repr

/-- An exception of a resource (`rdl.ExceptionDef`). -/
structure ExceptionDef where
  Type_ : String
  Comment : String
  deriving DecidableEq, Repr

/-- A resource (`rdl.Resource`).  `Exceptions` is the Go map, given as the
sequence of entries in which `range` enumerates it; a map has each key once. -/
structure Resource where
  Type_ : String
  Method : String
  Path : String
  Comment : String
  Inputs : List ResourceInput
  Outputs : List ResourceOutput
  Auth : Option ResourceAuth
  Expected : String
  Exceptions : List (String × ExceptionDef)
  Async : Option Bool
  Name : String
  deriving DecidableEq, Repr

/-- The schema (`rdl.Schema`). -/
structure Schema where
  Namespace : String
  Name : String
  Version : Option Int
  Comment : String
  Types : List RdlType
  Resources : List Resource

/-- What the generator takes from outside `javaschema.go`: the text that `%v`
gives for a variant tag and for the pointer `t.BaseType` (nil included), which
is decided by the methods of package `rdl`; the registry `rdl.NewTypeRegistry`
builds for a schema; and `GenerationPackage`, a function of the generator that
is defined in another file. -/
structure External where
  variantText : TypeVariant → String
  baseTypeText : Option BaseType → String
  NewTypeRegistry : Schema → TypeRegistry
  GenerationPackage : Schema → String → String

/-! ## The literal formatter -/

/-- Source lines 153-178, `javaLiteral`.  `none` is the nil dereference of
`*otype.BaseType` or of `otype.EnumTypeDef.Name`. -/
def javaLiteral (otype : RdlType) (oval : Value) : Option String :=
  match otype.Variant with
  | .StringTypeDef => some (goQuote (sprint oval))
  | .NumberTypeDef => some (sprint oval)
  | .AliasTypeDef => some "null"
  | .BaseType =>
    match otype.BaseType with
    | none => none
    | some .String | some .Timestamp | some .UUID | some .Symbol =>
      some (goQuote (sprint oval))
    | some .Bool => some (sprint oval)
    | some .Int8 | some .Int16 | some .Int32 | some .Int64 => some (sprint oval)
    | some .Float32 | some .Float64 => some (sprint oval)
    | some (.other _) => some "null"
  | .EnumTypeDef =>
    match otype.EnumTypeDef with
    | none => none
    | some e => some (e.Name ++ "." ++ sprint oval)
  | _ => some "null"

/-! ## The type constructors -/

/-- Source lines 87-102, `javaGenerateStringTypeConstructor`. -/
def javaGenerateStringTypeConstructor (t : StringTypeDef) : String :=
  let s := "    sb.stringType(" ++ goQuote t.Name ++ ")"
  let s := if t.Comment ≠ "" then s ++ ("\n            .comment(" ++ goQuote t.Comment ++ ")") else s
  let s := if t.Pattern ≠ "" then s ++ ("\n            .pattern(" ++ goQuote t.Pattern ++ ")") else s
  let s := match t.MinSize with
    | some n => s ++ ("\n            .minSize(" ++ fmtInt n ++ ")")
    | none => s
  let s := match t.MaxSize with
    | some n => s ++ ("\n            .maxSize(" ++ fmtInt n ++ ")")
    | none => s
  s ++ ";"

/-- Source lines 104-114, `numberValueString`.  `none` is the nil dereference of
the payload the tag names. -/
def numberValueString (n : Number) : Option String :=
  match n.Variant with
  | .Int32 => n.Int32.map fmtInt
  | .Int64 => n.Int64.map fmtInt
  | .Float64 => n.Float64
  | .other _ => some "0"

/-- Source lines 116-129, `javaGenerateNumberTypeConstructor`. -/
def javaGenerateNumberTypeConstructor (t : NumberTypeDef) : Option String := do
  let stype := t.Type_
  let s := "    sb.numberType(" ++ goQuote t.Name ++ ", " ++ goQuote stype ++ ")"
  let s := if t.Comment ≠ "" then s ++ ("\n            .comment(" ++ goQuote t.Comment ++ ")") else s
  let s ← match t.Min with
    | some n => (numberValueString n).map (fun v => s ++ ("\n            .min(" ++ v ++ ")"))
    | none => some s
  let s ← match t.Max with
    | some n => (numberValueString n).map (fun v => s ++ ("\n            .max(" ++ v ++ ")"))
    | none => some s
  pure (s ++ ";")

/-- Source lines 131-140, `javaGenerateEnumTypeConstructor`. -/
def javaGenerateEnumTypeConstructor (t : EnumTypeDef) : String :=
  let s := "    sb.enumType(" ++ goQuote t.Name ++ ")"
  let s := if t.Comment ≠ "" then s ++ ("\n            .comment(" ++ goQuote t.Comment ++ ")") else s
  let s := t.Elements.foldl
    (fun s e => s ++ ("\n            .element(" ++ goQuote e.Symbol ++ ")")) s
  s ++ ";"

/-- Source lines 142-151, `javaGenerateUnionTypeConstructor`. -/
def javaGenerateUnionTypeConstructor (t : UnionTypeDef) : String :=
  let s := "    sb.unionType(" ++ goQuote t.Name ++ ")"
  let s := if t.Comment ≠ "" then s ++ ("\n            .comment(" ++ goQuote t.Comment ++ ")") else s
  let s := t.Variants.foldl
    (fun s v => s ++ ("\n            .variant(" ++ goQuote v ++ ")")) s
  s ++ ";"

/-- Source lines 181-186: the struct-declare call, the supertype being an
argument unless it is `"Struct"`. -/
def structDeclare (t : StructTypeDef) : String :=
  let s := "    sb.structType(" ++ goQuote t.Name
  if t.Type_ ≠ "Struct" then s ++ (", " ++ goQuote t.Type_ ++ ")") else s ++ ")"

/-- Source lines 191-210: the text one field adds, the body of the loop over
`t.Fields`. -/
def structField (reg : TypeRegistry) (f : StructFieldDef) : Option String :=
  if f.Keys ≠ "" then
    let fkeys := f.Keys
    let fitems := f.Items
    some ("\n            .mapField(" ++ goQuote f.Name ++ ", " ++ goQuote fkeys ++ ", "
      ++ goQuote fitems ++ ", " ++ fmtBool f.Optional ++ ", " ++ goQuote f.Comment ++ ")")
  else if f.Items ≠ "" then
    let fitems := f.Items
    some ("\n            .arrayField(" ++ goQuote f.Name ++ ", " ++ goQuote fitems ++ ", "
      ++ fmtBool f.Optional ++ ", " ++ goQuote f.Comment ++ ")")
  else
    let ftype := f.Type_
    match f.Default with
    | some d => do
      let ft := reg.FindType f.Type_
      let ss ← match ft with
        | some ft => javaLiteral ft d
        | none => some "null"
      pure ("\n            .field(" ++ goQuote f.Name ++ ", " ++ goQuote ftype ++ ", "
        ++ fmtBool f.Optional ++ ", " ++ goQuote f.Comment ++ ", " ++ ss ++ ")")
    | none =>
      some ("\n            .field(" ++ goQuote f.Name ++ ", " ++ goQuote ftype ++ ", "
        ++ fmtBool f.Optional ++ ", " ++ goQuote f.Comment ++ ")")

/-- Source lines 180-213, `javaGenerateStructTypeConstructor`. -/
def javaGenerateStructTypeConstructor (reg : TypeRegistry) (t : StructTypeDef) :
    Option String := do
  let s := structDeclare t
  let s := if t.Comment ≠ "" then s ++ ("\n            .comment(" ++ goQuote t.Comment ++ ")") else s
  let s ← t.Fields.foldlM (fun s f => (structField reg f).map (fun c => s ++ c)) s
  pure (s ++ ";")

/-! ## The resource constructor -/

/-- Source lines 218-223: the loop over the inputs that stops at the first one
that is no path, query or header parameter; `rTypeName` is the value so far. -/
def bodyInputType : List ResourceInput → String → String
  | [], rTypeName => rTypeName
  | ri :: rest, rTypeName =>
    if !ri.PathParam && ri.QueryParam == "" && ri.Header == "" then ri.Type_
    else bodyInputType rest rTypeName

/-- Source lines 216-224: the variable `rTypeName`. -/
def rTypeName (rez : Resource) : String :=
  let rTypeName := rez.Type_
  if rez.Method = "PUT" ∨ rez.Method = "POST" then bodyInputType rez.Inputs rTypeName
  else rTypeName

/-- Source lines 225-231: the resource-declare call with the comment and the
name. -/
def resourceDeclare (rez : Resource) : String :=
  let s := "    sb.resource(" ++ goQuote (rTypeName rez) ++ ", " ++ goQuote rez.Method ++ ", "
    ++ goQuote rez.Path ++ ")"
  let s := if rez.Comment ≠ "" then s ++ ("\n            .comment(" ++ goQuote rez.Comment ++ ")") else s
  let s := if rez.Name ≠ "" then s ++ ("\n            .name(" ++ goQuote rez.Name ++ ")") else s
  s

/-- Source lines 233-239: the variable `def` of an input. -/
def inputDefault (reg : TypeRegistry) (ri : ResourceInput) : Option String :=
  match ri.Default with
  | some d =>
    match reg.FindType ri.Type_ with
    | some ft => javaLiteral ft d
    | none => some "null"
  | none => some "null"

/-- Source lines 233-248: the text one input adds, the body of the loop over
`rez.Inputs`. -/
def inputCall (reg : TypeRegistry) (ri : ResourceInput) : Option String := do
  let def_ ← inputDefault reg ri
  if ri.PathParam then
    pure ("\n            .pathParam(" ++ goQuote ri.Name ++ ", " ++ goQuote ri.Type_ ++ ", "
      ++ goQuote ri.Comment ++ ")")
  else if ri.QueryParam ≠ "" then
    pure ("\n            .queryParam(" ++ goQuote ri.QueryParam ++ ", " ++ goQuote ri.Name ++ ", "
      ++ goQuote ri.Type_ ++ ", " ++ def_ ++ ", " ++ goQuote ri.Comment ++ ")")
  else if ri.Header ≠ "" then
    pure ("\n            .headerParam(" ++ goQuote ri.Header ++ ", " ++ goQuote ri.Name ++ ", "
      ++ goQuote ri.Type_ ++ ", " ++ def_ ++ ", " ++ goQuote ri.Comment ++ ")")
  else
    pure ("\n            .input(" ++ goQuote ri.Name ++ ", " ++ goQuote ri.Type_ ++ ", "
      ++ goQuote ri.Comment ++ ")")

/-- Source line 251: the text one output adds. -/
def outputCall (ro : ResourceOutput) : String :=
  "\n            .output(" ++ goQuote ro.Header ++ ", " ++ goQuote ro.Name ++ ", "
    ++ goQuote ro.Type_ ++ ", " ++ goQuote ro.Comment ++ ")"

/-- Source lines 253-261: the text the authorization adds. -/
def authCalls (rez : Resource) : String :=
  match rez.Auth with
  | some auth =>
    if auth.Domain ≠ "" then
      "\n            .auth(" ++ goQuote auth.Action ++ ", " ++ goQuote auth.Resource ++ ", "
        ++ fmtBool auth.Authenticate ++ ", " ++ goQuote auth.Domain ++ ")"
    else if auth.Authenticate then
      "\n            .auth(" ++ goQuote auth.Action ++ ", " ++ goQuote auth.Resource ++ ", true)"
    else
      "\n            .auth(" ++ goQuote auth.Action ++ ", " ++ goQuote auth.Resource ++ ")"
  | none => ""

/-- Source line 262: the expected-status call. -/
def expectedCall (rez : Resource) : String :=
  "\n            .expected(" ++ goQuote rez.Expected ++ ")"

/-- Source lines 264-268: the keys of the exception map, collected in the order
of enumeration and then sorted. -/
def exceptionSyms (rez : Resource) : List String :=
  let syms := rez.Exceptions.foldl (fun syms e => syms ++ [e.1]) []
  sortStrings syms

/-- Source lines 270-271: the text the exception of key `sym` adds; `re` is
`rez.Exceptions[sym]`, nil when the map has no such key. -/
def exceptionCall (rez : Resource) (sym : String) : Option String :=
  match rez.Exceptions.lookup sym with
  | some re =>
    some ("\n            .exception(" ++ goQuote sym ++ ", " ++ goQuote re.Type_ ++ ", "
      ++ goQuote re.Comment ++ ")\n")
  | none => none

/-- Source lines 273-277: the text the async flag adds. -/
def asyncCall (rez : Resource) : String :=
  match rez.Async with
  | some true => "\n            .async()\n"
  | _ => ""

/-- Source lines 215-279, `javaGenerateResourceConstructor`. -/
def javaGenerateResourceConstructor (reg : TypeRegistry) (rez : Resource) :
    Option String := do
  let s := resourceDeclare rez
  let s ← rez.Inputs.foldlM (fun s ri => (inputCall reg ri).map (fun c => s ++ c)) s
  let s := rez.Outputs.foldl (fun s ro => s ++ outputCall ro) s
  let s := s ++ authCalls rez
  let s := s ++ expectedCall rez
  let s ← (exceptionSyms rez).foldlM (fun s sym => (exceptionCall rez sym).map (fun c => s ++ c)) s
  let s := s ++ asyncCall rez
  pure (s ++ ";")

/-! ## The dispatch on the variant of a type -/

/-- Source lines 60-85, `javaGenerateTypeConstructor`.  `none` is the nil
dereference of the payload the tag names (in the callee for the struct, enum,
string, number and union variants). -/
def javaGenerateTypeConstructor (ext : External) (reg : TypeRegistry) (t : RdlType) :
    Option String :=
  match t.Variant with
  | .BaseType => some ("    //s.type(BaseType) NYI - " ++ ext.baseTypeText t.BaseType)
  | .StructTypeDef =>
    match t.StructTypeDef with
    | some d => javaGenerateStructTypeConstructor reg d
    | none => none
  | .EnumTypeDef =>
    match t.EnumTypeDef with
    | some d => some (javaGenerateEnumTypeConstructor d)
    | none => none
  | .StringTypeDef =>
    match t.StringTypeDef with
    | some d => some (javaGenerateStringTypeConstructor d)
    | none => none
  | .MapTypeDef =>
    match t.MapTypeDef with
    | some d => some ("    //s.type(MapTypeDef) NYI - " ++ d.Name)
    | none => none
  | .ArrayTypeDef =>
    match t.ArrayTypeDef with
    | some d => some ("    //s.type(ArrayTypeDef) NYI - " ++ d.Name)
    | none => none
  | .BytesTypeDef =>
    match t.BytesTypeDef with
    | some d => some ("    //s.type(BytesTypeDef) NYI - " ++ d.Name)
    | none => none
  | .NumberTypeDef =>
    match t.NumberTypeDef with
    | some d => javaGenerateNumberTypeConstructor d
    | none => none
  | .UnionTypeDef =>
    match t.UnionTypeDef with
    | some d => some (javaGenerateUnionTypeConstructor d)
    | none => none
  | .AliasTypeDef => some ""
  | .other tag => some ("    //s.type(" ++ ext.variantText (.other tag) ++ ");")

/-! ## The schema assembler -/

/-- Source lines 19-29: the template function `header`. -/
def header (ext : External) (schema : Schema) (ns : String) (banner : String) : String :=
  let s := "//\n// This file generated by " ++ banner ++ ". Do not modify!\n//\n\n"
  let s2 := ext.GenerationPackage schema ns
  let s := if s2 ≠ "" then s ++ "package " ++ s2 ++ ";\n" else s
  let s := if ns ≠ "com.yahoo.rdl" then s ++ "import com.yahoo.rdl.*;\n" else s
  s

/-- Source lines 30-36: the template function `version`. -/
def version (schema : Schema) : String :=
  match schema.Version with
  | some v => "        sb.version(" ++ fmtInt v ++ ");"
  | none => ""

/-- Source lines 38-44: the template function `namespace`. -/
def namespaceCall (schema : Schema) : String :=
  if schema.Namespace ≠ "" then "\n        sb.namespace(" ++ goQuote schema.Namespace ++ ");"
  else ""

/-- Source lines 45-51: the template function `comment`. -/
def comment (schema : Schema) : String :=
  if schema.Comment ≠ "" then "\n        sb.comment(" ++ goQuote schema.Comment ++ ");"
  else ""

/-- Source lines 16-58 and 281-303, `GenerateSchema`: the execution of
`javaSchemaTemplate` on the schema, as the text written to `writer`.  The text
between two actions of the template is copied, an action is replaced by the
result of its function, and the body of a `range` is run once per element, in
order.  `none` is the error `Execute` returns when a function of the template
fails. -/
def GenerateSchema (ext : External) (schema : Schema) (cName : String) (ns : String)
    (banner : String) : Option String := do
  let reg := ext.NewTypeRegistry schema
  let out := header ext schema ns banner
  let out := out ++ "\npublic class "
  let out := out ++ cName
  let out := out ++ (" \x7b\n\n    private final static Schema INSTANCE = build();\n"
    ++ "    public static Schema instance() \x7b\n        return INSTANCE;\n    \x7d\n\n"
    ++ "    private static Schema build() \x7b\n"
    ++ "        SchemaBuilder sb = new SchemaBuilder(\"")
  let out := out ++ schema.Name
  let out := out ++ "\");\n"
  let out := out ++ version schema
  let out := out ++ namespaceCall schema
  let out := out ++ comment schema
  let out := out ++ "\n"
  let out ← schema.Types.foldlM
    (fun out t => (javaGenerateTypeConstructor ext reg t).map
      (fun c => out ++ ("\n    " ++ c ++ "\n"))) out
  let out := out ++ "\n"
  let out ← schema.Resources.foldlM
    (fun out r => (javaGenerateResourceConstructor reg r).map
      (fun c => out ++ ("\n    " ++ c ++ "\n"))) out
  pure (out ++ "\n\n        return sb.build();\n    \x7d\n\n\x7d\n")

/-! ## The rendering of a type, the slices holding pointers

The slices `Fields` of a struct and `Elements` of an enum hold pointers.  Here
an element is an `Option`, `none` being the nil pointer, and the functions that
render a type are embedded again on these types: a nil element fails where the
source reads it (`f.Keys` at line 191, `e.Symbol` at line 137). -/

/-- A struct type definition (`rdl.StructTypeDef`), `Fields` being a slice of
pointers. -/
structure StructTypeDefPtr where
  Type_ : String
  Name : String
  Comment : String
  Fields : List (Option StructFieldDef)
  deriving DecidableEq, Repr

/-- An enum type definition (`rdl.EnumTypeDef`), `Elements` being a slice of
pointers. -/
structure EnumTypeDefPtr where
  Name : String
  Comment : String
  Elements : List (Option EnumElementDef)
  deriving DecidableEq, Repr

/-- A type of the schema (`rdl.Type`), its struct and enum payloads with slices
of pointers. -/
structure RdlTypePtr where
  Variant : TypeVariant
  BaseType : Option BaseType
  StructTypeDef : Option StructTypeDefPtr
  MapTypeDef : Option NamedTypeDef
  ArrayTypeDef : Option NamedTypeDef
  EnumTypeDef : Option EnumTypeDefPtr
  UnionTypeDef : Option UnionTypeDef
  StringTypeDef : Option StringTypeDef
  BytesTypeDef : Option NamedTypeDef
  NumberTypeDef : Option NumberTypeDef
  AliasTypeDef : Option NamedTypeDef
  deriving DecidableEq, Repr

/-- The type registry (`rdl.TypeRegistry`) over these types. -/
structure TypeRegistryPtr where
  FindType : String → Option RdlTypePtr

/-- Source lines 153-178, `javaLiteral`.  `none` is the nil dereference of
`*otype.BaseType` or of `otype.EnumTypeDef.Name`. -/
def javaLiteralPtr (otype : RdlTypePtr) (oval : Value) : Option String :=
  match otype.Variant with
  | .StringTypeDef => some (goQuote (sprint oval))
  | .NumberTypeDef => some (sprint oval)
  | .AliasTypeDef => some "null"
  | .BaseType =>
    match otype.BaseType with
    | none => none
    | some .String | some .Timestamp | some .UUID | some .Symbol =>
      some (goQuote (sprint oval))
    | some .Bool => some (sprint oval)
    | some .Int8 | some .Int16 | some .Int32 | some .Int64 => some (sprint oval)
    | some .Float32 | some .Float64 => some (sprint oval)
    | some (.other _) => some "null"
  | .EnumTypeDef =>
    match otype.EnumTypeDef with
    | none => none
    | some e => some (e.Name ++ "." ++ sprint oval)
  | _ => some "null"

/-- Source lines 131-140, `javaGenerateEnumTypeConstructor`.  `none` is the nil
dereference `e.Symbol` of a nil element. -/
def javaGenerateEnumTypeConstructorPtr (t : EnumTypeDefPtr) : Option String := do
  let s := "    sb.enumType(" ++ goQuote t.Name ++ ")"
  let s := if t.Comment ≠ "" then s ++ ("\n            .comment(" ++ goQuote t.Comment ++ ")") else s
  let s ← t.Elements.foldlM
    (fun s e =>
      (e.map (fun e => "\n            .element(" ++ goQuote e.Symbol ++ ")")).map
        (fun c => s ++ c)) s
  pure (s ++ ";")

/-- Source lines 191-210: the text one non-nil field adds, the body of the loop
over `t.Fields`. -/
def structFieldPtr (reg : TypeRegistryPtr) (f : StructFieldDef) : Option String :=
  if f.Keys ≠ "" then
    let fkeys := f.Keys
    let fitems := f.Items
    some ("\n            .mapField(" ++ goQuote f.Name ++ ", " ++ goQuote fkeys ++ ", "
      ++ goQuote fitems ++ ", " ++ fmtBool f.Optional ++ ", " ++ goQuote f.Comment ++ ")")
  else if f.Items ≠ "" then
    let fitems := f.Items
    some ("\n            .arrayField(" ++ goQuote f.Name ++ ", " ++ goQuote fitems ++ ", "
      ++ fmtBool f.Optional ++ ", " ++ goQuote f.Comment ++ ")")
  else
    let ftype := f.Type_
    match f.Default with
    | some d => do
      let ft := reg.FindType f.Type_
      let ss ← match ft with
        | some ft => javaLiteralPtr ft d
        | none => some "null"
      pure ("\n            .field(" ++ goQuote f.Name ++ ", " ++ goQuote ftype ++ ", "
        ++ fmtBool f.Optional ++ ", " ++ goQuote f.Comment ++ ", " ++ ss ++ ")")
    | none =>
      some ("\n            .field(" ++ goQuote f.Name ++ ", " ++ goQuote ftype ++ ", "
        ++ fmtBool f.Optional ++ ", " ++ goQuote f.Comment ++ ")")

/-- Source lines 180-213, `javaGenerateStructTypeConstructor`.  `none` is the
nil dereference `f.Keys` of a nil element, or a failure of `javaLiteral`. -/
def javaGenerateStructTypeConstructorPtr (reg : TypeRegistryPtr) (t : StructTypeDefPtr) :
    Option String := do
  let s := "    sb.structType(" ++ goQuote t.Name
  let s := if t.Type_ ≠ "Struct" then s ++ (", " ++ goQuote t.Type_ ++ ")") else s ++ ")"
  let s := if t.Comment ≠ "" then s ++ ("\n            .comment(" ++ goQuote t.Comment ++ ")") else s
  let s ← t.Fields.foldlM (fun s f => (f.bind (structFieldPtr reg)).map (fun c => s ++ c)) s
  pure (s ++ ";")

/-- Source lines 60-85, `javaGenerateTypeConstructor`.  `none` is a nil
dereference: of the payload the tag names, of an element of a slice, or of the
payload of a bound. -/
def javaGenerateTypeConstructorPtr (ext : External) (reg : TypeRegistryPtr) (t : RdlTypePtr) :
    Option String :=
  match t.Variant with
  | .BaseType => some ("    //s.type(BaseType) NYI - " ++ ext.baseTypeText t.BaseType)
  | .StructTypeDef =>
    match t.StructTypeDef with
    | some d => javaGenerateStructTypeConstructorPtr reg d
    | none => none
  | .EnumTypeDef =>
    match t.EnumTypeDef with
    | some d => javaGenerateEnumTypeConstructorPtr d
    | none => none
  | .StringTypeDef =>
    match t.StringTypeDef with
    | some d => some (javaGenerateStringTypeConstructor d)
    | none => none
  | .MapTypeDef =>
    match t.MapTypeDef with
    | some d => some ("    //s.type(MapTypeDef) NYI - " ++ d.Name)
    | none => none
  | .ArrayTypeDef =>
    match t.ArrayTypeDef with
    | some d => some ("    //s.type(ArrayTypeDef) NYI - " ++ d.Name)
    | none => none
  | .BytesTypeDef =>
    match t.BytesTypeDef with
    | some d => some ("    //s.type(BytesTypeDef) NYI - " ++ d.Name)
    | none => none
  | .NumberTypeDef =>
    match t.NumberTypeDef with
    | some d => javaGenerateNumberTypeConstructor d
    | none => none
  | .UnionTypeDef =>
    match t.UnionTypeDef with
    | some d => some (javaGenerateUnionTypeConstructor d)
    | none => none
  | .AliasTypeDef => some ""
  | .other tag => some ("    //s.type(" ++ ext.variantText (.other tag) ++ ");")

/-! ## Reading the text as builder calls -/

/-- The text of a call: the name, then the arguments between parentheses,
separated by a comma and a blank. -/
def builderCall (name : String) (args : List String) : String :=
  name ++ "(" ++ ", ".intercalate args ++ ")"

/-- A call that opens a statement on the schema builder `sb`. -/
def declareCall (name : String) (args : List String) : String :=
  "    sb." ++ builderCall name args

/-- A call chained on its own line to the statement before it. -/
def chainedCall (name : String) (args : List String) : String :=
  "\n            ." ++ builderCall name args

/-- The exception call of one entry of the exception map, with the line break
that follows it. -/
def exceptionText (e : String × ExceptionDef) : String :=
  chainedCall "exception" [goQuote e.1, goQuote e.2.Type_, goQuote e.2.Comment] ++ "\n"

/-- The text of a resource, put together from the texts of its inputs and of
the entries of its exception map in the order `entries`. -/
def resourceText (rez : Resource) (ins : List String)
    (entries : List (String × ExceptionDef)) : String :=
  resourceDeclare rez ++ String.join ins ++ String.join (rez.Outputs.map outputCall)
    ++ authCalls rez ++ expectedCall rez ++ String.join (entries.map exceptionText)
    ++ asyncCall rez ++ ";"

/-- The result type of a resource in the words of the specification: for `PUT`
and `POST` the type of the first input that is no path parameter and has neither
a query-parameter name nor a header name, when there is one; in every other
case the declared type of the resource. -/
def declaredResultType (rez : Resource) : String :=
  if rez.Method = "PUT" ∨ rez.Method = "POST" then
    match rez.Inputs.find?
        (fun ri => decide (ri.PathParam = false ∧ ri.QueryParam = "" ∧ ri.Header = "")) with
    | some ri => ri.Type_
    | none => rez.Type_
  else rez.Type_

/-- A chained call that is present only when its one argument, a text, is not
empty. -/
def optionalCall (name : String) (text : String) : String :=
  if text = "" then "" else chainedCall name [goQuote text]

/-- The call that describes an input, `d` being the text of its default: a
path-parameter call for a path parameter; else a query-parameter call when the
query-parameter name is not empty; else a header-parameter call when the header
name is not empty; else a plain input call. -/
def inputText (ri : ResourceInput) (d : String) : String :=
  if ri.PathParam = true then
    chainedCall "pathParam" [goQuote ri.Name, goQuote ri.Type_, goQuote ri.Comment]
  else if ri.QueryParam ≠ "" then
    chainedCall "queryParam"
      [goQuote ri.QueryParam, goQuote ri.Name, goQuote ri.Type_, d, goQuote ri.Comment]
  else if ri.Header ≠ "" then
    chainedCall "headerParam"
      [goQuote ri.Header, goQuote ri.Name, goQuote ri.Type_, d, goQuote ri.Comment]
  else chainedCall "input" [goQuote ri.Name, goQuote ri.Type_, goQuote ri.Comment]

/-- The text is a plain input call: it opens with the chained name `input` and
the opening parenthesis. -/
def isInputCall (text : String) : Bool :=
  "\n            .input(".data.isPrefixOf text.data

/-- The tag of the type agrees with its payload: the payload that a known tag
names is populated.  Nothing is asked of a tag outside the known ones, and
nothing of the other payloads. -/
def payloadPresent (t : RdlType) : Bool :=
  match t.Variant with
  | .BaseType => t.BaseType.isSome
  | .StructTypeDef => t.StructTypeDef.isSome
  | .MapTypeDef => t.MapTypeDef.isSome
  | .ArrayTypeDef => t.ArrayTypeDef.isSome
  | .EnumTypeDef => t.EnumTypeDef.isSome
  | .UnionTypeDef => t.UnionTypeDef.isSome
  | .StringTypeDef => t.StringTypeDef.isSome
  | .BytesTypeDef => t.BytesTypeDef.isSome
  | .NumberTypeDef => t.NumberTypeDef.isSome
  | .AliasTypeDef => t.AliasTypeDef.isSome
  | .other _ => true

/-- The tag of a numeric bound agrees with its payload. -/
def numberPresent (n : Number) : Bool :=
  match n.Variant with
  | .Int32 => n.Int32.isSome
  | .Int64 => n.Int64.isSome
  | .Float64 => n.Float64.isSome
  | .other _ => true

/-- Every type the registry resolves has a tag that agrees with its payload. -/
def registryPresent (reg : TypeRegistry) : Prop :=
  ∀ name T, reg.FindType name = some T → payloadPresent T = true

/-- A statement on the schema builder `sb`, in the body of `build`: the call and
the terminator. -/
def schemaCall (name : String) (args : List String) : String :=
  "        sb." ++ builderCall name args ++ ";"

/-- The container of the generated schema, from the line of the class to the
line that makes the schema builder. -/
def containerPreamble (cName : String) (name : String) : String :=
  "\npublic class " ++ cName ++ " \x7b\n\n"
    ++ "    private final static Schema INSTANCE = build();\n"
    ++ "    public static Schema instance() \x7b\n"
    ++ "        return INSTANCE;\n"
    ++ "    \x7d\n\n"
    ++ "    private static Schema build() \x7b\n"
    ++ "        SchemaBuilder sb = new SchemaBuilder(\"" ++ name ++ "\");\n"

/-- The end of the generated schema: the return of the built schema and the
closing braces. -/
def containerEnd : String :=
  "\n\n        return sb.build();\n    \x7d\n\n\x7d\n"

/-- The tag of the type agrees with its payload: the payload that a known tag
names is populated.  Nothing is asked of a tag outside the known ones, and
nothing of the other payloads. -/
def payloadPresentPtr (t : RdlTypePtr) : Bool :=
  match t.Variant with
  | .BaseType => t.BaseType.isSome
  | .StructTypeDef => t.StructTypeDef.isSome
  | .MapTypeDef => t.MapTypeDef.isSome
  | .ArrayTypeDef => t.ArrayTypeDef.isSome
  | .EnumTypeDef => t.EnumTypeDef.isSome
  | .UnionTypeDef => t.UnionTypeDef.isSome
  | .StringTypeDef => t.StringTypeDef.isSome
  | .BytesTypeDef => t.BytesTypeDef.isSome
  | .NumberTypeDef => t.NumberTypeDef.isSome
  | .AliasTypeDef => t.AliasTypeDef.isSome
  | .other _ => true

/-- The bounds of a type of the number variant agree with their tags. -/
def boundsPresentPtr (t : RdlTypePtr) : Bool :=
  match t.Variant, t.NumberTypeDef with
  | .NumberTypeDef, some d => d.Min.all numberPresent && d.Max.all numberPresent
  | _, _ => true

/-- The slice the rendering walks holds no nil pointer: the fields of a type of
the struct variant, the elements of a type of the enum variant. -/
def elementsPresent (t : RdlTypePtr) : Bool :=
  match t.Variant with
  | .StructTypeDef => t.StructTypeDef.all (fun d => d.Fields.all Option.isSome)
  | .EnumTypeDef => t.EnumTypeDef.all (fun d => d.Elements.all Option.isSome)
  | _ => true

/-- A struct type definition as Go holds it, no field being nil. -/
def structToPtr (d : StructTypeDef) : StructTypeDefPtr :=
  { Type_ := d.Type_, Name := d.Name, Comment := d.Comment, Fields := d.Fields.map some }

/-- An enum type definition as Go holds it, no element being nil. -/
def enumToPtr (d : EnumTypeDef) : EnumTypeDefPtr :=
  { Name := d.Name, Comment := d.Comment, Elements := d.Elements.map some }

/-- A type as Go holds it, no element of its slices being nil. -/
def typeToPtr (t : RdlType) : RdlTypePtr :=
  { Variant := t.Variant, BaseType := t.BaseType,
    StructTypeDef := t.StructTypeDef.map structToPtr, MapTypeDef := t.MapTypeDef,
    ArrayTypeDef := t.ArrayTypeDef, EnumTypeDef := t.EnumTypeDef.map enumToPtr,
    UnionTypeDef := t.UnionTypeDef, StringTypeDef := t.StringTypeDef,
    BytesTypeDef := t.BytesTypeDef, NumberTypeDef := t.NumberTypeDef,
    AliasTypeDef := t.AliasTypeDef }

/-- A registry as Go holds it, no element of a slice of its types being nil. -/
def registryToPtr (reg : TypeRegistry) : TypeRegistryPtr :=
  { FindType := fun name => (reg.FindType name).map typeToPtr }

/-- Every type the registry resolves has a tag that agrees with its payload. -/
def registryPresentPtr (reg : TypeRegistryPtr) : Prop :=
  ∀ name T, reg.FindType name = some T → payloadPresentPtr T = true

/-! ## Inputs of the examples -/

/-- A registry that knows no type. -/
def emptyRegistry : TypeRegistry :=
  { FindType := fun _ => none }

/-- The resource `GET /items/{id}` with the exceptions `NOT_FOUND` and
`FORBIDDEN`, enumerated in this order. -/
def itemResource : Resource :=
  { Type_ := "Item", Method := "GET", Path := "/items/{id}", Comment := "",
    Inputs := [{ Name := "id", Type_ := "String", Comment := "", PathParam := true,
                 QueryParam := "", Header := "", Default := none }],
    Outputs := [], Auth := none, Expected := "OK",
    Exceptions := [("NOT_FOUND", { Type_ := "ResourceError", Comment := "" }),
                   ("FORBIDDEN", { Type_ := "ResourceError", Comment := "" })],
    Async := none, Name := "" }

/-- A type with no payload and a tag outside the known ones. -/
def emptyType : RdlType :=
  { Variant := .other 0, BaseType := none, StructTypeDef := none, MapTypeDef := none,
    ArrayTypeDef := none, EnumTypeDef := none, UnionTypeDef := none, StringTypeDef := none,
    BytesTypeDef := none, NumberTypeDef := none, AliasTypeDef := none }

/-- The base type of `b`. -/
def baseTypeOf (b : BaseType) : RdlType :=
  { emptyType with Variant := .BaseType, BaseType := some b }

/-- The string type `Tag`, of 1 to 10 characters. -/
def tagType : RdlType :=
  { emptyType with
    Variant := .StringTypeDef,
    StringTypeDef := some { Name := "Tag", Comment := "", Pattern := "", MinSize := some 1,
                            MaxSize := some 10 } }

/-- The enum `Color` with the symbols `RED` and `GREEN`. -/
def colorEnum : EnumTypeDef :=
  { Name := "Color", Comment := "",
    Elements := [{ Symbol := "RED", Comment := "" }, { Symbol := "GREEN", Comment := "" }] }

/-- The enum type `Color`. -/
def colorType : RdlType :=
  { emptyType with Variant := .EnumTypeDef, EnumTypeDef := some colorEnum }

/-- The number type `Count`, of base `Int32`. -/
def countType : RdlType :=
  { emptyType with
    Variant := .NumberTypeDef,
    NumberTypeDef := some { Type_ := "Int32", Name := "Count", Comment := "", Min := none,
                            Max := none } }

/-- A registry that knows the base type `String` and the enum `Color`. -/
def smallRegistry : TypeRegistry :=
  { FindType := fun n =>
      if n = "String" then some (baseTypeOf .String)
      else if n = "Color" then some colorType
      else none }

/-- A scalar field of type `String` with the default `"untitled"`. -/
def titleField : StructFieldDef :=
  { Name := "title", Type_ := "String", Optional := false, Default := some (.str "untitled"),
    Comment := "", Items := "", Keys := "" }

/-- A scalar field of a type no registry of the examples knows, with a default. -/
def strayField : StructFieldDef :=
  { Name := "stray", Type_ := "Missing", Optional := true, Default := some (.int 7),
    Comment := "", Items := "", Keys := "" }

/-- The path parameter `id`. -/
def idPath : ResourceInput :=
  { Name := "id", Type_ := "String", Comment := "", PathParam := true, QueryParam := "",
    Header := "", Default := none }

/-- The query parameter `color` of type `Color` with the default `RED`. -/
def colorQuery : ResourceInput :=
  { Name := "color", Type_ := "Color", Comment := "", PathParam := false, QueryParam := "c",
    Header := "", Default := some (.str "RED") }

/-- The header parameter `trace`, without a default. -/
def traceHeader : ResourceInput :=
  { Name := "trace", Type_ := "String", Comment := "", PathParam := false, QueryParam := "",
    Header := "X-Trace", Default := none }

/-- The header parameter `stray` of a type the registry does not know, with a
default. -/
def strayHeader : ResourceInput :=
  { Name := "stray", Type_ := "Missing", Comment := "", PathParam := false, QueryParam := "",
    Header := "X-Stray", Default := some (.int 7) }

/-- The plain input `item` of type `Item`. -/
def itemBody : ResourceInput :=
  { Name := "item", Type_ := "Item", Comment := "", PathParam := false, QueryParam := "",
    Header := "", Default := none }

/-- The plain input `note` of type `Note`. -/
def noteBody : ResourceInput :=
  { Name := "note", Type_ := "Note", Comment := "", PathParam := false, QueryParam := "",
    Header := "", Default := none }

/-- The resource `PUT /items/{id}` of declared type `Result`, with a path, a
query, a header and two plain inputs, and the async flag set. -/
def putResource : Resource :=
  { Type_ := "Result", Method := "PUT", Path := "/items/{id}", Comment := "",
    Inputs := [idPath, colorQuery, traceHeader, itemBody, noteBody],
    Outputs := [], Auth := none, Expected := "OK",
    Exceptions := [("NOT_FOUND", { Type_ := "ResourceError", Comment := "" })],
    Async := some true, Name := "" }

/-- An instance of `External` for the examples: the name of a known tag or base
type and `?` for any other, where package `rdl` has its own text; the target
namespace `ns` as the package.  The theorems hold for every `External`. -/
def plainExternal : External :=
  { variantText := fun v =>
      match v with
      | .BaseType => "BaseType"
      | .StructTypeDef => "StructTypeDef"
      | .MapTypeDef => "MapTypeDef"
      | .ArrayTypeDef => "ArrayTypeDef"
      | .EnumTypeDef => "EnumTypeDef"
      | .UnionTypeDef => "UnionTypeDef"
      | .StringTypeDef => "StringTypeDef"
      | .BytesTypeDef => "BytesTypeDef"
      | .NumberTypeDef => "NumberTypeDef"
      | .AliasTypeDef => "AliasTypeDef"
      | .other _ => "?",
    baseTypeText := fun b =>
      match b with
      | some .Bool => "Bool"
      | some .Int8 => "Int8"
      | some .Int16 => "Int16"
      | some .Int32 => "Int32"
      | some .Int64 => "Int64"
      | some .Float32 => "Float32"
      | some .Float64 => "Float64"
      | some .String => "String"
      | some .Timestamp => "Timestamp"
      | some .Symbol => "Symbol"
      | some .UUID => "UUID"
      | some (.other _) => "?"
      | none => "<nil>",
    NewTypeRegistry := fun _ => smallRegistry,
    GenerationPackage := fun _ ns => ns }

/-- The alias type `Id`. -/
def aliasType : RdlType :=
  { emptyType with Variant := .AliasTypeDef, AliasTypeDef := some { Name := "Id" } }

/-- The map type `Dict`. -/
def dictType : RdlType :=
  { emptyType with Variant := .MapTypeDef, MapTypeDef := some { Name := "Dict" } }

/-- The array type `Row`. -/
def rowType : RdlType :=
  { emptyType with Variant := .ArrayTypeDef, ArrayTypeDef := some { Name := "Row" } }

/-- The bytes type `Blob`. -/
def blobType : RdlType :=
  { emptyType with Variant := .BytesTypeDef, BytesTypeDef := some { Name := "Blob" } }

/-- A type with no payload and a tag outside the known ones. -/
def emptyTypePtr : RdlTypePtr :=
  { Variant := .other 0, BaseType := none, StructTypeDef := none, MapTypeDef := none,
    ArrayTypeDef := none, EnumTypeDef := none, UnionTypeDef := none, StringTypeDef := none,
    BytesTypeDef := none, NumberTypeDef := none, AliasTypeDef := none }

/-- A registry that knows no type. -/
def emptyRegistryPtr : TypeRegistryPtr :=
  { FindType := fun _ => none }

/-- A registry that knows the base type `String`. -/
def stringRegistryPtr : TypeRegistryPtr :=
  { FindType := fun n =>
      if n = "String" then
        some { emptyTypePtr with Variant := .BaseType, BaseType := some .String }
      else none }

/-- A registry that resolves `String` to a type of the base variant with no
base-type payload. -/
def brokenRegistryPtr : TypeRegistryPtr :=
  { FindType := fun n =>
      if n = "String" then some { emptyTypePtr with Variant := .BaseType } else none }

/-- The number type `Level` whose lower bound has the tag `Int32` and no `Int32`
payload. -/
def levelTypePtr : RdlTypePtr :=
  { emptyTypePtr with
    Variant := .NumberTypeDef,
    NumberTypeDef := some { Type_ := "Int32", Name := "Level", Comment := "",
                            Min := some { Variant := .Int32, Int32 := none, Int64 := none,
                                          Float64 := none },
                            Max := none } }

/-- The struct type `Book` with the one field `title`, of type `String` and with
a default. -/
def bookTypePtr : RdlTypePtr :=
  { emptyTypePtr with
    Variant := .StructTypeDef,
    StructTypeDef := some { Type_ := "Struct", Name := "Book", Comment := "",
                            Fields := [some titleField] } }

/-- The struct type `Torn` whose slice of fields holds one nil pointer. -/
def tornTypePtr : RdlTypePtr :=
  { emptyTypePtr with
    Variant := .StructTypeDef,
    StructTypeDef := some { Type_ := "Struct", Name := "Torn", Comment := "",
                            Fields := [none] } }

/-- The enum type `Color` with the symbols `RED` and `GREEN`, no element nil. -/
def colorTypePtr : RdlTypePtr :=
  { emptyTypePtr with
    Variant := .EnumTypeDef,
    EnumTypeDef := some { Name := "Color", Comment := "",
                          Elements := [some { Symbol := "RED", Comment := "" },
                                       some { Symbol := "GREEN", Comment := "" }] } }

/-- The enum type `Gap` whose slice of elements holds a nil pointer. -/
def gapTypePtr : RdlTypePtr :=
  { emptyTypePtr with
    Variant := .EnumTypeDef,
    EnumTypeDef := some { Name := "Gap", Comment := "",
                          Elements := [some { Symbol := "RED", Comment := "" }, none] } }

/-- The string type definition `Tag`, of 1 to 10 characters. -/
def tagDef : StringTypeDef :=
  { Name := "Tag", Comment := "", Pattern := "", MinSize := some 1, MaxSize := some 10 }

/-- The schema `Example` of version 1 with the one type `Tag` and no resource. -/
def exampleSchema : Schema :=
  { Namespace := "", Name := "Example", Version := some 1, Comment := "",
    Types := [tagType], Resources := [] }

/-! ## Lemmas on lists and strings -/

theorem string_join_cons (a : String) (l : List String) :
    String.join (a :: l) = a ++ String.join l := by
  simp [String.join_eq, String.ext_iff]

theorem string_join_nil : String.join [] = "" := rfl

theorem string_append_empty (s : String) : s ++ "" = s := by
  simp [String.ext_iff]

theorem foldl_append_eq_join {α : Type} (f : α → String) (l : List α) (s : String) :
    l.foldl (fun s x => s ++ f x) s = s ++ String.join (l.map f) := by
  induction l generalizing s with
  | nil => simp [string_join_nil, string_append_empty]
  | cons a l ih => simp [ih, string_join_cons, String.append_assoc]

theorem foldlM_append_eq_join {α : Type} (f : α → Option String) (l : List α) (s : String) :
    l.foldlM (fun s x => (f x).map (fun c => s ++ c)) s
      = (l.mapM f).map (fun cs => s ++ String.join cs) := by
  induction l generalizing s with
  | nil =>
    rw [List.mapM_nil]
    simp [string_join_nil, string_append_empty]
  | cons a l ih =>
    rw [List.mapM_cons, List.foldlM_cons]
    cases h : f a with
    | none => rfl
    | some c =>
      simp only [Option.map_some', Option.bind_eq_bind, Option.some_bind, ih]
      cases l.mapM f <;> simp [string_join_cons, String.append_assoc]

theorem mapM_eq_some_map {α β : Type} (f : α → Option β) (g : α → β) (l : List α)
    (h : ∀ x ∈ l, f x = some (g x)) : l.mapM f = some (l.map g) := by
  induction l with
  | nil => rfl
  | cons a l ih =>
    have ha := h a (List.mem_cons_self a l)
    have hl := ih (fun x hx => h x (List.mem_cons_of_mem a hx))
    rw [List.mapM_cons, ha, hl]
    rfl

theorem mapM_map_fst {β γ : Type} (f : String → Option γ) (l : List (String × β)) :
    (l.map Prod.fst).mapM f = l.mapM (fun e => f e.1) := by
  induction l with
  | nil => rfl
  | cons a l ih => rw [List.map_cons, List.mapM_cons, List.mapM_cons, ih]

theorem lookup_of_mem_of_nodup {β : Type} (l : List (String × β))
    (nd : (l.map Prod.fst).Nodup) (k : String) (v : β) (h : (k, v) ∈ l) :
    l.lookup k = some v := by
  induction l with
  | nil => simp at h
  | cons p l ih =>
    obtain ⟨k1, v1⟩ := p
    simp only [List.map_cons, List.nodup_cons, List.mem_map, Prod.exists, exists_and_right,
      exists_eq_right, not_exists] at nd
    rcases List.mem_cons.1 h with heq | hmem
    · cases heq
      simp [List.lookup]
    · have hne : k ≠ k1 := by
        intro hk
        subst hk
        exact nd.1 v hmem
      have hb : (k == k1) = false := by simpa using hne
      simp [List.lookup, hb, ih nd.2 hmem]

theorem collect_keys {β : Type} (l : List (String × β)) (acc : List String) :
    l.foldl (fun syms e => syms ++ [e.1]) acc = acc ++ l.map Prod.fst := by
  induction l generalizing acc with
  | nil => simp
  | cons a l ih => simp [ih]

theorem insertionSort_rel_congr {α : Type} (r s : α → α → Prop) [DecidableRel r]
    [DecidableRel s] (h : ∀ a b, r a b ↔ s a b) (l : List α) :
    l.insertionSort r = l.insertionSort s := by
  have hrs : r = s := funext fun a => funext fun b => propext (h a b)
  subst hrs
  congr

theorem sortStrings_eq (l : List String) :
    sortStrings l = l.insertionSort (fun a b => a ≤ b) :=
  insertionSort_rel_congr _ _ (fun _ _ => String.le_iff_toList_le.symm) l

theorem sortStrings_sorted (l : List String) : (sortStrings l).Sorted (fun a b => a ≤ b) := by
  rw [sortStrings_eq]
  exact List.sorted_insertionSort _ l

theorem sortStrings_perm (l : List String) : (sortStrings l).Perm l :=
  List.perm_insertionSort _ l

/-- The entries of a map in the order of their keys. -/
theorem sorted_entries (m : List (String × ExceptionDef)) (nd : (m.map Prod.fst).Nodup) :
    ∃ entries : List (String × ExceptionDef),
      entries.Perm m ∧ (entries.map Prod.fst).Sorted (fun a b => a < b)
        ∧ entries.map Prod.fst = sortStrings (m.map Prod.fst) := by
  refine ⟨m.insertionSort (fun a b => a.1.toList ≤ b.1.toList), List.perm_insertionSort _ m, ?_, ?_⟩
  · have hmap : (m.insertionSort (fun a b => a.1.toList ≤ b.1.toList)).map Prod.fst
        = sortStrings (m.map Prod.fst) :=
      List.map_insertionSort _ _ Prod.fst m (fun _ _ _ _ => Iff.rfl)
    rw [hmap]
    exact (sortStrings_sorted _).lt_of_le ((sortStrings_perm _).nodup_iff.2 nd)
  · exact List.map_insertionSort _ _ Prod.fst m (fun _ _ _ _ => Iff.rfl)

theorem exceptionSyms_eq (rez : Resource) :
    exceptionSyms rez = sortStrings (rez.Exceptions.map Prod.fst) := by
  simp [exceptionSyms, collect_keys]

theorem exceptionCall_of_mem (rez : Resource) (nd : (rez.Exceptions.map Prod.fst).Nodup)
    (e : String × ExceptionDef) (h : e ∈ rez.Exceptions) :
    exceptionCall rez e.1 = some (exceptionText e) := by
  have hl := lookup_of_mem_of_nodup rez.Exceptions nd e.1 e.2 h
  simp only [exceptionCall, hl, exceptionText, chainedCall, builderCall, String.intercalate,
    String.intercalate.go]
  simp [String.ext_iff]

/-- The text of a resource: the calls in the order of the source, the input
calls failing together. -/
theorem resource_text_of_syms (reg : TypeRegistry) (rez : Resource) :
    javaGenerateResourceConstructor reg rez =
      (rez.Inputs.mapM (inputCall reg)).bind (fun ins =>
        ((exceptionSyms rez).mapM (exceptionCall rez)).map (fun excs =>
          resourceDeclare rez ++ String.join ins ++ String.join (rez.Outputs.map outputCall)
            ++ authCalls rez ++ expectedCall rez ++ String.join excs ++ asyncCall rez ++ ";")) := by
  unfold javaGenerateResourceConstructor
  simp only [foldlM_append_eq_join, foldl_append_eq_join, bind, pure]
  cases rez.Inputs.mapM (inputCall reg) with
  | none => rfl
  | some ins =>
    simp only [Option.map_some', Option.some_bind, Option.bind]
    cases (exceptionSyms rez).mapM (exceptionCall rez) with
    | none => rfl
    | some excs => simp [String.append_assoc]

/-- The text of a resource whose exception map has each key once. -/
theorem resource_text_sorted (reg : TypeRegistry) (rez : Resource)
    (nd : (rez.Exceptions.map Prod.fst).Nodup) :
    ∃ entries : List (String × ExceptionDef),
      entries.Perm rez.Exceptions ∧ (entries.map Prod.fst).Sorted (fun a b => a < b)
        ∧ javaGenerateResourceConstructor reg rez
          = (rez.Inputs.mapM (inputCall reg)).map (fun ins => resourceText rez ins entries) := by
  obtain ⟨entries, hperm, hsorted, hkeys⟩ := sorted_entries rez.Exceptions nd
  refine ⟨entries, hperm, hsorted, ?_⟩
  have hcalls : (exceptionSyms rez).mapM (exceptionCall rez) = some (entries.map exceptionText) := by
    rw [exceptionSyms_eq, ← hkeys, ← mapM_eq_some_map (fun e => exceptionCall rez e.1) exceptionText
      entries (fun e he => exceptionCall_of_mem rez nd e (hperm.mem_iff.1 he))]
    exact mapM_map_fst _ _
  rw [resource_text_of_syms, hcalls]
  cases rez.Inputs.mapM (inputCall reg) <;> simp [resourceText]

/-! ## The exception calls of a resource -/

/-- Claim C1. For a resource whose exception map has each key once, the text
`javaGenerateResourceConstructor` returns holds, between the expected-status call
and the async marker, one exception call per entry of the map (`entries` is a
rearrangement of the map), in strictly ascending order of the key, each call
with the key, the type and the comment of its own entry. -/
theorem exception_calls_sorted_by_key (reg : TypeRegistry) (rez : Resource)
    (nd : (rez.Exceptions.map Prod.fst).Nodup) :
    ∃ entries : List (String × ExceptionDef),
      entries.Perm rez.Exceptions ∧ (entries.map Prod.fst).Sorted (fun a b => a < b)
        ∧ javaGenerateResourceConstructor reg rez
          = (rez.Inputs.mapM (inputCall reg)).map (fun ins =>
              resourceDeclare rez ++ String.join ins ++ String.join (rez.Outputs.map outputCall)
                ++ authCalls rez ++ expectedCall rez
                ++ String.join (entries.map (fun e =>
                    chainedCall "exception" [goQuote e.1, goQuote e.2.Type_, goQuote e.2.Comment]
                      ++ "\n"))
                ++ asyncCall rez ++ ";") :=
  resource_text_sorted reg rez nd

set_option maxRecDepth 100000 in
/-- The resource `GET /items/{id}` with the map `NOT_FOUND`, `FORBIDDEN`: the call
of `FORBIDDEN` comes before the call of `NOT_FOUND`. -/
theorem exception_calls_sorted_by_key_witness :
    (itemResource.Exceptions.map Prod.fst).Nodup
      ∧ (∃ entries : List (String × ExceptionDef),
          entries.Perm itemResource.Exceptions
            ∧ (entries.map Prod.fst).Sorted (fun a b => a < b)
            ∧ javaGenerateResourceConstructor emptyRegistry itemResource
              = (itemResource.Inputs.mapM (inputCall emptyRegistry)).map (fun ins =>
                  resourceDeclare itemResource ++ String.join ins
                    ++ String.join (itemResource.Outputs.map outputCall)
                    ++ authCalls itemResource ++ expectedCall itemResource
                    ++ String.join (entries.map (fun e =>
                        chainedCall "exception"
                          [goQuote e.1, goQuote e.2.Type_, goQuote e.2.Comment] ++ "\n"))
                    ++ asyncCall itemResource ++ ";"))
      ∧ javaGenerateResourceConstructor emptyRegistry itemResource
        = some ("    sb.resource(\"Item\", \"GET\", \"/items/{id}\")"
            ++ "\n            .pathParam(\"id\", \"String\", \"\")"
            ++ "\n            .expected(\"OK\")"
            ++ "\n            .exception(\"FORBIDDEN\", \"ResourceError\", \"\")\n"
            ++ "\n            .exception(\"NOT_FOUND\", \"ResourceError\", \"\")\n"
            ++ ";") :=
  ⟨by decide, exception_calls_sorted_by_key emptyRegistry itemResource (by decide), by decide⟩

/-- Claim C2. Two enumerations of one exception map (each key once, the same
entries in any two orders) give the same text: the result of
`javaGenerateResourceConstructor` does not depend on the order in which the map
is enumerated. -/
theorem exception_order_irrelevant (reg : TypeRegistry) (rez : Resource)
    (m1 m2 : List (String × ExceptionDef)) (nd : (m1.map Prod.fst).Nodup)
    (hp : m1.Perm m2) :
    javaGenerateResourceConstructor reg { rez with Exceptions := m1 }
      = javaGenerateResourceConstructor reg { rez with Exceptions := m2 } := by
  have nd2 : (m2.map Prod.fst).Nodup := ((hp.map Prod.fst).nodup_iff).1 nd
  obtain ⟨e1, hp1, hs1, h1⟩ := resource_text_sorted reg { rez with Exceptions := m1 } nd
  obtain ⟨e2, hp2, hs2, h2⟩ := resource_text_sorted reg { rez with Exceptions := m2 } nd2
  have hperm : e1.Perm e2 := (hp1.trans hp).trans hp2.symm
  have he : e1 = e2 := by
    haveI : IsAntisymm (String × ExceptionDef) (fun a b => a.1 < b.1) :=
      ⟨fun _ _ hab hba => absurd hab (lt_asymm hba)⟩
    exact List.eq_of_perm_of_sorted hperm (List.pairwise_map.1 hs1) (List.pairwise_map.1 hs2)
  rw [h1, h2, he]
  rfl

/-- Two enumerations of the map `NOT_FOUND`, `FORBIDDEN`. -/
theorem exception_order_irrelevant_witness :
    (itemResource.Exceptions.map Prod.fst).Nodup
      ∧ itemResource.Exceptions.Perm itemResource.Exceptions.reverse
      ∧ javaGenerateResourceConstructor emptyRegistry
          { itemResource with Exceptions := itemResource.Exceptions }
        = javaGenerateResourceConstructor emptyRegistry
          { itemResource with Exceptions := itemResource.Exceptions.reverse } :=
  ⟨by decide, (List.reverse_perm _).symm,
    exception_order_irrelevant emptyRegistry itemResource itemResource.Exceptions
      itemResource.Exceptions.reverse (by decide) (List.reverse_perm _).symm⟩

/-! ## The declare call and the authorization of a resource -/

theorem bodyInputType_eq_find (l : List ResourceInput) (r : String) :
    bodyInputType l r
      = match l.find?
          (fun ri => decide (ri.PathParam = false ∧ ri.QueryParam = "" ∧ ri.Header = "")) with
        | some ri => ri.Type_
        | none => r := by
  induction l with
  | nil => rfl
  | cons ri l ih =>
    by_cases h : ri.PathParam = false ∧ ri.QueryParam = "" ∧ ri.Header = ""
    · simp [bodyInputType, List.find?, h]
    · have hb : (!ri.PathParam && ri.QueryParam == "" && ri.Header == "") = false := by
        cases hp : ri.PathParam <;> simp_all
      simp only [bodyInputType, hb, List.find?, h, decide_False]
      exact ih

theorem rTypeName_eq (rez : Resource) : rTypeName rez = declaredResultType rez := by
  unfold rTypeName declaredResultType
  split_ifs
  · exact bodyInputType_eq_find _ _
  · rfl

theorem resourceDeclare_eq (rez : Resource) :
    resourceDeclare rez
      = declareCall "resource"
          [goQuote (declaredResultType rez), goQuote rez.Method, goQuote rez.Path]
        ++ optionalCall "comment" rez.Comment ++ optionalCall "name" rez.Name := by
  simp only [resourceDeclare, rTypeName_eq, declareCall, optionalCall, chainedCall, builderCall,
    String.intercalate, String.intercalate.go]
  split_ifs <;> simp_all [String.ext_iff]

/-- Claim C3. The text of a resource opens with the resource-declare call, and
the first argument of that call is the quoted result type: for `PUT` and `POST`
the type of the first input, in declaration order, that is no path parameter and
has neither a query-parameter name nor a header name, when there is one; the
declared type of the resource in every other case. -/
theorem resource_declare_result_type (reg : TypeRegistry) (rez : Resource) :
    javaGenerateResourceConstructor reg rez
      = (rez.Inputs.mapM (inputCall reg)).bind (fun ins =>
          ((exceptionSyms rez).mapM (exceptionCall rez)).map (fun excs =>
            declareCall "resource"
                [goQuote
                  (if rez.Method = "PUT" ∨ rez.Method = "POST" then
                    match rez.Inputs.find? (fun ri =>
                        decide (ri.PathParam = false ∧ ri.QueryParam = "" ∧ ri.Header = "")) with
                    | some ri => ri.Type_
                    | none => rez.Type_
                  else rez.Type_),
                 goQuote rez.Method, goQuote rez.Path]
              ++ optionalCall "comment" rez.Comment ++ optionalCall "name" rez.Name
              ++ String.join ins ++ String.join (rez.Outputs.map outputCall)
              ++ authCalls rez ++ expectedCall rez ++ String.join excs ++ asyncCall rez ++ ";")) := by
  rw [resource_text_of_syms, resourceDeclare_eq]
  rfl

/-- Claim C10. The authorization adds nothing to the text of a resource when
`Auth` is absent, and one `auth` call when it is present: with the arguments
action, resource, authenticate flag and domain when the domain is not empty; with
action, resource and `true` when the domain is empty and the flag is true; with
action and resource when the domain is empty and the flag is false.  That text
stands between the output calls and the expected-status call. -/
theorem auth_call_shapes (reg : TypeRegistry) (rez : Resource) :
    authCalls rez
        = (match rez.Auth with
          | none => ""
          | some auth =>
            chainedCall "auth"
              (if auth.Domain ≠ "" then
                [goQuote auth.Action, goQuote auth.Resource, fmtBool auth.Authenticate,
                  goQuote auth.Domain]
              else if auth.Authenticate = true then
                [goQuote auth.Action, goQuote auth.Resource, "true"]
              else [goQuote auth.Action, goQuote auth.Resource]))
      ∧ javaGenerateResourceConstructor reg rez
        = (rez.Inputs.mapM (inputCall reg)).bind (fun ins =>
            ((exceptionSyms rez).mapM (exceptionCall rez)).map (fun excs =>
              resourceDeclare rez ++ String.join ins ++ String.join (rez.Outputs.map outputCall)
                ++ authCalls rez ++ expectedCall rez ++ String.join excs ++ asyncCall rez
                ++ ";")) := by
  refine ⟨?_, resource_text_of_syms reg rez⟩
  unfold authCalls
  cases rez.Auth with
  | none => rfl
  | some auth =>
    simp only [chainedCall, builderCall]
    split_ifs <;> simp [String.intercalate, String.intercalate.go, String.ext_iff]

/-! ## The literal formatter -/

/-- Claim C6. For a type of the enum variant whose enum has the name `N`, and
for every value `v`, `javaLiteral` returns the text of `N`, a dot and the text of
`v`: the member reference `N.v`, nothing of it quoted. -/
theorem enum_literal_is_qualified (t : RdlType) (e : EnumTypeDef) (v : Value)
    (hv : t.Variant = .EnumTypeDef) (he : t.EnumTypeDef = some e) :
    javaLiteral t v = some (e.Name ++ "." ++ sprint v) := by
  simp [javaLiteral, hv, he]

/-- The symbol `RED` of the enum `Color`. -/
theorem enum_literal_is_qualified_witness :
    colorType.Variant = .EnumTypeDef ∧ colorType.EnumTypeDef = some colorEnum
      ∧ javaLiteral colorType (.str "RED") = some (colorEnum.Name ++ "." ++ sprint (.str "RED"))
      ∧ javaLiteral colorType (.str "RED") = some "Color.RED" :=
  ⟨rfl, rfl, enum_literal_is_qualified colorType colorEnum (.str "RED") rfl rfl, by decide⟩

/-- Claim C7. For every value `v`: on a type of the string variant, and on a
base type among string, timestamp, UUID and symbol, `javaLiteral` returns the
quoted text of `v`; on a base type among bool, int8, int16, int32 and int64 it
returns the text of `v` unquoted; on a base type outside these and outside
float32 and float64 it returns `null`. -/
theorem literal_of_string_and_base_types (t : RdlType) (b : BaseType) (v : Value) :
    (t.Variant = .StringTypeDef → javaLiteral t v = some (goQuote (sprint v)))
      ∧ (t.Variant = .BaseType → t.BaseType = some b
          → b ∈ [BaseType.String, BaseType.Timestamp, BaseType.UUID, BaseType.Symbol]
          → javaLiteral t v = some (goQuote (sprint v)))
      ∧ (t.Variant = .BaseType → t.BaseType = some b
          → b ∈ [BaseType.Bool, BaseType.Int8, BaseType.Int16, BaseType.Int32, BaseType.Int64]
          → javaLiteral t v = some (sprint v))
      ∧ (t.Variant = .BaseType → t.BaseType = some b
          → b ∉ [BaseType.String, BaseType.Timestamp, BaseType.UUID, BaseType.Symbol,
                 BaseType.Bool, BaseType.Int8, BaseType.Int16, BaseType.Int32, BaseType.Int64,
                 BaseType.Float32, BaseType.Float64]
          → javaLiteral t v = some "null") := by
  refine ⟨?_, ?_, ?_, ?_⟩
  · intro hv
    simp [javaLiteral, hv]
  · intro hv hb hmem
    cases b <;> simp_all [javaLiteral]
  · intro hv hb hmem
    cases b <;> simp_all [javaLiteral]
  · intro hv hb hmem
    cases b <;> simp_all [javaLiteral]

/-- The string type `Tag`, the base types `UUID` and `Int16`, and a base type
outside the named ones. -/
theorem literal_of_string_and_base_types_witness :
    javaLiteral tagType (.str "a\"b") = some (goQuote (sprint (.str "a\"b")))
      ∧ javaLiteral tagType (.str "a\"b") = some "\"a\\\"b\""
      ∧ javaLiteral (baseTypeOf .UUID) (.int 12) = some (goQuote (sprint (.int 12)))
      ∧ javaLiteral (baseTypeOf .UUID) (.int 12) = some "\"12\""
      ∧ javaLiteral (baseTypeOf .Int16) (.int (-12)) = some (sprint (.int (-12)))
      ∧ javaLiteral (baseTypeOf .Int16) (.int (-12)) = some "-12"
      ∧ javaLiteral (baseTypeOf (.other 18)) (.bool true) = some "null" :=
  ⟨(literal_of_string_and_base_types tagType .String (.str "a\"b")).1 rfl,
    by decide,
    (literal_of_string_and_base_types (baseTypeOf .UUID) .UUID (.int 12)).2.1 rfl rfl
      (by decide),
    by decide,
    (literal_of_string_and_base_types (baseTypeOf .Int16) .Int16 (.int (-12))).2.2.1 rfl rfl
      (by decide),
    by decide,
    (literal_of_string_and_base_types (baseTypeOf (.other 18)) (.other 18) (.bool true)).2.2.2
      rfl rfl (by decide)⟩

/-- Claim C5, as stated, fails: the number type `Count` is none of the string
variant, the base variant and the enum variant, and `javaLiteral` returns for
it the text of the value, `5`, not `null`. -/
theorem literal_of_number_type_is_not_null :
    countType.Variant ≠ .StringTypeDef ∧ countType.Variant ≠ .BaseType
      ∧ countType.Variant ≠ .EnumTypeDef
      ∧ javaLiteral countType (.int 5) = some "5"
      ∧ javaLiteral countType (.int 5) ≠ some "null" := by
  decide

/-- Claim C5, amended. For every value `v`, `javaLiteral` returns `null` on a
type whose variant is the alias, struct, map, array, bytes or union type-def or
a tag outside the known ones; on a type of the number variant it returns the
text of `v` unquoted. -/
theorem literal_of_other_variants (t : RdlType) (v : Value) :
    (t.Variant ∈ [TypeVariant.AliasTypeDef, TypeVariant.StructTypeDef, TypeVariant.MapTypeDef,
        TypeVariant.ArrayTypeDef, TypeVariant.BytesTypeDef, TypeVariant.UnionTypeDef]
        ∨ (∃ tag, t.Variant = TypeVariant.other tag)
      → javaLiteral t v = some "null")
      ∧ (t.Variant = .NumberTypeDef → javaLiteral t v = some (sprint v)) := by
  constructor
  · rintro (hmem | ⟨tag, htag⟩)
    · cases hv : t.Variant <;> simp_all [javaLiteral]
    · simp [javaLiteral, htag]
  · intro hv
    simp [javaLiteral, hv]

/-- A type of a tag outside the known ones, and the number type `Count`. -/
theorem literal_of_other_variants_witness :
    javaLiteral emptyType (.str "x") = some "null"
      ∧ javaLiteral { emptyType with Variant := .AliasTypeDef } (.str "x") = some "null"
      ∧ javaLiteral countType (.int 5) = some (sprint (.int 5)) :=
  ⟨(literal_of_other_variants emptyType (.str "x")).1 (Or.inr ⟨0, rfl⟩),
    (literal_of_other_variants { emptyType with Variant := .AliasTypeDef } (.str "x")).1
      (Or.inl (by decide)),
    (literal_of_other_variants countType (.int 5)).2 rfl⟩

/-! ## The struct and enum constructors -/

theorem structDeclare_eq (t : StructTypeDef) :
    structDeclare t
      = declareCall "structType"
          (if t.Type_ = "Struct" then [goQuote t.Name] else [goQuote t.Name, goQuote t.Type_]) := by
  simp only [structDeclare, declareCall, builderCall]
  split_ifs <;> simp_all [String.intercalate, String.intercalate.go, String.ext_iff]

/-- The text of a struct: the declare call, the comment, the texts of the
fields in their order, the terminator. -/
theorem struct_text (reg : TypeRegistry) (t : StructTypeDef) :
    javaGenerateStructTypeConstructor reg t
      = (t.Fields.mapM (structField reg)).map (fun fs =>
          structDeclare t ++ optionalCall "comment" t.Comment ++ String.join fs ++ ";") := by
  unfold javaGenerateStructTypeConstructor
  simp only [foldlM_append_eq_join, bind, pure]
  cases t.Fields.mapM (structField reg) with
  | none => rfl
  | some fs =>
    simp only [Option.map_some', Option.bind, optionalCall, chainedCall, builderCall,
      String.intercalate, String.intercalate.go]
    split_ifs <;> simp_all [String.ext_iff]

/-- Claim C4. A scalar field of a struct (no key type, no item type) with a
default value `d` adds a `field` call of five arguments: when the registry
resolves the declared type of the field to a type `T`, the fifth argument is
`javaLiteral T d`; when the registry does not resolve it, the fifth argument is
`null`.  The text of the struct holds that call at the place of the field. -/
theorem struct_field_default_literal (reg : TypeRegistry) (t : StructTypeDef)
    (f : StructFieldDef) (d : Value) (hk : f.Keys = "") (hi : f.Items = "")
    (hd : f.Default = some d) :
    structField reg f
        = (match reg.FindType f.Type_ with
          | some T =>
            (javaLiteral T d).map (fun lit =>
              chainedCall "field"
                [goQuote f.Name, goQuote f.Type_, fmtBool f.Optional, goQuote f.Comment, lit])
          | none =>
            some (chainedCall "field"
              [goQuote f.Name, goQuote f.Type_, fmtBool f.Optional, goQuote f.Comment, "null"]))
      ∧ javaGenerateStructTypeConstructor reg t
        = (t.Fields.mapM (structField reg)).map (fun fs =>
            structDeclare t ++ optionalCall "comment" t.Comment ++ String.join fs ++ ";") := by
  refine ⟨?_, struct_text reg t⟩
  simp only [structField, hk, hi, hd, ne_eq, not_true_eq_false, if_false, chainedCall,
    builderCall, String.intercalate, String.intercalate.go, bind, pure]
  cases reg.FindType f.Type_ with
  | none => simp [String.ext_iff]
  | some T =>
    cases h : javaLiteral T d <;> simp [h, String.ext_iff]

set_option maxRecDepth 100000 in
/-- A field whose type the registry resolves, and a field whose type it does
not resolve. -/
theorem struct_field_default_literal_witness :
    (titleField.Keys = "" ∧ titleField.Items = ""
        ∧ titleField.Default = some (.str "untitled")
        ∧ smallRegistry.FindType titleField.Type_ = some (baseTypeOf .String)
        ∧ structField smallRegistry titleField
          = some "\n            .field(\"title\", \"String\", false, \"\", \"untitled\")")
      ∧ (strayField.Keys = "" ∧ strayField.Items = "" ∧ strayField.Default = some (.int 7)
        ∧ smallRegistry.FindType strayField.Type_ = none
        ∧ structField smallRegistry strayField
          = some "\n            .field(\"stray\", \"Missing\", true, \"\", null)") :=
  ⟨⟨rfl, rfl, rfl, by decide,
      ((struct_field_default_literal smallRegistry
        { Type_ := "Struct", Name := "Book", Comment := "", Fields := [titleField] }
        titleField (.str "untitled") rfl rfl rfl).1).trans (by decide)⟩,
    ⟨rfl, rfl, rfl, by decide,
      ((struct_field_default_literal smallRegistry
        { Type_ := "Struct", Name := "Book", Comment := "", Fields := [strayField] }
        strayField (.int 7) rfl rfl rfl).1).trans (by decide)⟩⟩

/-- Claim C8. The text of a struct opens with the struct-declare call; that
call has one argument, the quoted name, when the declared supertype is
`"Struct"`, and two arguments, the quoted name and the quoted supertype, for
every other supertype, the empty one included. -/
theorem struct_declare_arguments (reg : TypeRegistry) (t : StructTypeDef) :
    javaGenerateStructTypeConstructor reg t
      = (t.Fields.mapM (structField reg)).map (fun fs =>
          declareCall "structType"
              (if t.Type_ = "Struct" then [goQuote t.Name]
               else [goQuote t.Name, goQuote t.Type_])
            ++ optionalCall "comment" t.Comment ++ String.join fs ++ ";") := by
  rw [struct_text, structDeclare_eq]

/-- Claim C9. The text of an enum is the enum-declare call with the quoted
name, the comment call when the comment is not empty, one element call per
symbol in the order of declaration, and the terminator; an enum with no symbol
gives the declare call (and the comment call) with no element call. -/
theorem enum_constructor_text (t : EnumTypeDef) :
    javaGenerateEnumTypeConstructor t
        = declareCall "enumType" [goQuote t.Name] ++ optionalCall "comment" t.Comment
          ++ String.join (t.Elements.map (fun e => chainedCall "element" [goQuote e.Symbol]))
          ++ ";"
      ∧ javaGenerateEnumTypeConstructor { t with Elements := [] }
        = declareCall "enumType" [goQuote t.Name] ++ optionalCall "comment" t.Comment ++ ";" := by
  have key : ∀ u : EnumTypeDef, javaGenerateEnumTypeConstructor u
      = declareCall "enumType" [goQuote u.Name] ++ optionalCall "comment" u.Comment
        ++ String.join (u.Elements.map (fun e => chainedCall "element" [goQuote e.Symbol]))
        ++ ";" := by
    intro u
    simp only [javaGenerateEnumTypeConstructor, foldl_append_eq_join, declareCall, optionalCall,
      chainedCall, builderCall, String.intercalate, String.intercalate.go]
    have hmap : u.Elements.map (fun e => "\n            .element(" ++ goQuote e.Symbol ++ ")")
        = u.Elements.map (fun e => "\n            ." ++ ("element" ++ "(" ++ goQuote e.Symbol ++ ")")) := by
      apply List.map_congr_left
      intro e _
      simp [String.ext_iff]
    rw [hmap]
    split_ifs <;> simp_all [String.ext_iff]
  refine ⟨key t, ?_⟩
  rw [key]
  simp [string_join_nil, String.ext_iff]

/-! ## The inputs and the async marker of a resource -/

theorem inputCall_eq (reg : TypeRegistry) (ri : ResourceInput) :
    inputCall reg ri = (inputDefault reg ri).map (inputText ri) := by
  unfold inputCall inputText
  cases h : inputDefault reg ri with
  | none => rfl
  | some d =>
    simp only [bind, pure, Option.some_bind, Option.map_some', Option.bind, chainedCall,
      builderCall, String.intercalate, String.intercalate.go]
    split_ifs <;> simp [String.ext_iff]

theorem javaLiteral_isSome (t : RdlType) (v : Value) (h : payloadPresent t = true) :
    (javaLiteral t v).isSome = true := by
  unfold payloadPresent at h
  unfold javaLiteral
  cases hv : t.Variant <;> simp only [hv] at h ⊢ <;> try rfl
  · cases hb : t.BaseType with
    | none => simp [hb] at h
    | some b => cases b <;> rfl
  · cases he : t.EnumTypeDef with
    | none => simp [he] at h
    | some e => rfl

theorem inputDefault_isSome (reg : TypeRegistry) (hreg : registryPresent reg)
    (ri : ResourceInput) : (inputDefault reg ri).isSome = true := by
  unfold inputDefault
  cases ri.Default with
  | none => rfl
  | some d =>
    cases hT : reg.FindType ri.Type_ with
    | none => rfl
    | some T => exact javaLiteral_isSome T d (hreg _ T hT)

theorem inputCall_of_present (reg : TypeRegistry) (hreg : registryPresent reg)
    (ri : ResourceInput) :
    inputCall reg ri = some (inputText ri ((inputDefault reg ri).getD "null")) := by
  rw [inputCall_eq]
  have h := inputDefault_isSome reg hreg ri
  cases hd : inputDefault reg ri with
  | none => simp [hd] at h
  | some d => rfl

theorem smallRegistry_present : registryPresent smallRegistry := by
  intro name T h
  unfold smallRegistry at h
  simp only at h
  split_ifs at h <;> simp at h <;> subst h <;> rfl

/-- Claim C11. The text of a resource holds, after the declare call with its
comment and name, the calls of the inputs in declaration order, one per input:
a path-parameter call (name, type, comment) for a path parameter; else a
query-parameter call when the query-parameter name is not empty; else a
header-parameter call when the header name is not empty; else a plain input
call (name, type, comment).  With a registry whose types agree with their tags
every input has its call, so that the calls are as many as the inputs. -/
theorem input_calls_in_order (reg : TypeRegistry) (rez : Resource) :
    (∀ ri : ResourceInput, inputCall reg ri
        = (inputDefault reg ri).map (fun d =>
            if ri.PathParam = true then
              chainedCall "pathParam" [goQuote ri.Name, goQuote ri.Type_, goQuote ri.Comment]
            else if ri.QueryParam ≠ "" then
              chainedCall "queryParam"
                [goQuote ri.QueryParam, goQuote ri.Name, goQuote ri.Type_, d, goQuote ri.Comment]
            else if ri.Header ≠ "" then
              chainedCall "headerParam"
                [goQuote ri.Header, goQuote ri.Name, goQuote ri.Type_, d, goQuote ri.Comment]
            else chainedCall "input" [goQuote ri.Name, goQuote ri.Type_, goQuote ri.Comment]))
      ∧ javaGenerateResourceConstructor reg rez
        = (rez.Inputs.mapM (inputCall reg)).bind (fun ins =>
            ((exceptionSyms rez).mapM (exceptionCall rez)).map (fun excs =>
              resourceDeclare rez ++ String.join ins ++ String.join (rez.Outputs.map outputCall)
                ++ authCalls rez ++ expectedCall rez ++ String.join excs ++ asyncCall rez
                ++ ";"))
      ∧ (registryPresent reg →
          rez.Inputs.mapM (inputCall reg)
            = some (rez.Inputs.map (fun ri => inputText ri ((inputDefault reg ri).getD "null")))) :=
  ⟨fun ri => inputCall_eq reg ri, resource_text_of_syms reg rez,
    fun hreg => mapM_eq_some_map _ _ _ (fun ri _ => inputCall_of_present reg hreg ri)⟩

set_option maxRecDepth 100000 in
/-- The five inputs of `PUT /items/{id}`. -/
theorem input_calls_in_order_witness :
    registryPresent smallRegistry
      ∧ putResource.Inputs.mapM (inputCall smallRegistry)
        = some (putResource.Inputs.map
            (fun ri => inputText ri ((inputDefault smallRegistry ri).getD "null")))
      ∧ putResource.Inputs.mapM (inputCall smallRegistry)
        = some ["\n            .pathParam(\"id\", \"String\", \"\")",
                "\n            .queryParam(\"c\", \"color\", \"Color\", Color.RED, \"\")",
                "\n            .headerParam(\"X-Trace\", \"trace\", \"String\", null, \"\")",
                "\n            .input(\"item\", \"Item\", \"\")",
                "\n            .input(\"note\", \"Note\", \"\")"] :=
  ⟨smallRegistry_present,
    (input_calls_in_order smallRegistry putResource).2.2 smallRegistry_present, by decide⟩

/-- Claim C12. For an input rendered as a query-parameter or header-parameter
call, the default argument of the call is `javaLiteral T d` when the input has
the default `d` and the registry resolves its type to `T`, and `null` when the
input has no default or the registry does not resolve its type. -/
theorem param_default_argument (reg : TypeRegistry) (ri : ResourceInput)
    (hp : ri.PathParam = false) (hq : ri.QueryParam ≠ "" ∨ ri.Header ≠ "") :
    inputDefault reg ri
        = (match ri.Default, reg.FindType ri.Type_ with
          | some d, some T => javaLiteral T d
          | _, _ => some "null")
      ∧ inputCall reg ri
        = (inputDefault reg ri).map (fun d =>
            if ri.QueryParam ≠ "" then
              chainedCall "queryParam"
                [goQuote ri.QueryParam, goQuote ri.Name, goQuote ri.Type_, d, goQuote ri.Comment]
            else
              chainedCall "headerParam"
                [goQuote ri.Header, goQuote ri.Name, goQuote ri.Type_, d, goQuote ri.Comment]) := by
  constructor
  · unfold inputDefault
    cases ri.Default with
    | none => rfl
    | some d => cases reg.FindType ri.Type_ <;> rfl
  · rw [inputCall_eq]
    congr 1
    funext d
    unfold inputText
    rcases hq with hq | hq
    · simp [hp, hq]
    · by_cases hq2 : ri.QueryParam = "" <;> simp [hp, hq, hq2]

set_option maxRecDepth 100000 in
/-- A query parameter with a default of a known type, a header parameter
without a default, and a header parameter with a default of an unknown type. -/
theorem param_default_argument_witness :
    (inputDefault smallRegistry colorQuery = javaLiteral colorType (.str "RED")
        ∧ inputCall smallRegistry colorQuery
          = some "\n            .queryParam(\"c\", \"color\", \"Color\", Color.RED, \"\")")
      ∧ (inputDefault smallRegistry traceHeader = some "null"
        ∧ inputCall smallRegistry traceHeader
          = some "\n            .headerParam(\"X-Trace\", \"trace\", \"String\", null, \"\")")
      ∧ (inputDefault smallRegistry strayHeader = some "null"
        ∧ inputCall smallRegistry strayHeader
          = some "\n            .headerParam(\"X-Stray\", \"stray\", \"Missing\", null, \"\")") :=
  ⟨⟨(param_default_argument smallRegistry colorQuery rfl (Or.inl (by decide))).1.trans
        (by decide),
      (param_default_argument smallRegistry colorQuery rfl (Or.inl (by decide))).2.trans
        (by decide)⟩,
    ⟨(param_default_argument smallRegistry traceHeader rfl (Or.inr (by decide))).1.trans
        (by decide),
      (param_default_argument smallRegistry traceHeader rfl (Or.inr (by decide))).2.trans
        (by decide)⟩,
    ⟨(param_default_argument smallRegistry strayHeader rfl (Or.inr (by decide))).1.trans
        (by decide),
      (param_default_argument smallRegistry strayHeader rfl (Or.inr (by decide))).2.trans
        (by decide)⟩⟩

/-- Claim C18. The async marker, a call without arguments, is added to the
text of a resource exactly when the async flag is present and true; nothing is
added when the flag is missing or false.  In the text it stands after the
expected-status call and after all exception calls, right before the
terminator. -/
theorem async_marker_last (reg : TypeRegistry) (rez : Resource) :
    asyncCall rez = (if rez.Async = some true then chainedCall "async" [] ++ "\n" else "")
      ∧ expectedCall rez = chainedCall "expected" [goQuote rez.Expected]
      ∧ javaGenerateResourceConstructor reg rez
        = (rez.Inputs.mapM (inputCall reg)).bind (fun ins =>
            ((exceptionSyms rez).mapM (exceptionCall rez)).map (fun excs =>
              resourceDeclare rez ++ String.join ins ++ String.join (rez.Outputs.map outputCall)
                ++ authCalls rez ++ expectedCall rez ++ String.join excs ++ asyncCall rez
                ++ ";")) := by
  refine ⟨?_, ?_, resource_text_of_syms reg rez⟩
  · unfold asyncCall
    cases rez.Async with
    | none => rfl
    | some b => cases b <;> decide
  · simp [expectedCall, chainedCall, builderCall, String.intercalate, String.intercalate.go,
      String.ext_iff]

theorem isInputCall_inputText (ri : ResourceInput) (d : String) :
    isInputCall (inputText ri d)
      = (!ri.PathParam && ri.QueryParam == "" && ri.Header == "") := by
  unfold inputText isInputCall
  split_ifs with h1 h2 h3
  · simp [h1, chainedCall, builderCall, List.isPrefixOf]
  · have h1b : ri.PathParam = false := by simpa using h1
    simp [h1b, h2, chainedCall, builderCall, List.isPrefixOf]
  · have h1b : ri.PathParam = false := by simpa using h1
    have h2b : ri.QueryParam = "" := by simpa using h2
    simp [h1b, h2b, h3, chainedCall, builderCall, List.isPrefixOf]
  · have h1b : ri.PathParam = false := by simpa using h1
    have h2b : ri.QueryParam = "" := by simpa using h2
    have h3b : ri.Header = "" := by simpa using h3
    simp [h1b, h2b, h3b, chainedCall, builderCall, List.isPrefixOf]

theorem isInputCall_of_inputCall (reg : TypeRegistry) (ri : ResourceInput) (out : String)
    (h : inputCall reg ri = some out) :
    isInputCall out = (!ri.PathParam && ri.QueryParam == "" && ri.Header == "") := by
  rw [inputCall_eq] at h
  cases hd : inputDefault reg ri with
  | none => simp [hd] at h
  | some d =>
    simp only [hd, Option.map_some', Option.some.injEq] at h
    rw [← h]
    exact isInputCall_inputText ri d

theorem find_of_mapM {α : Type} (f : α → Option String) (p : String → Bool) (q : α → Bool)
    (hpq : ∀ x out, f x = some out → p out = q x) (l : List α) (ins : List String)
    (hins : l.mapM f = some ins) (c : String) (hc : ins.find? p = some c) :
    ∃ x, l.find? q = some x ∧ f x = some c := by
  induction l generalizing ins with
  | nil =>
    rw [List.mapM_nil] at hins
    cases hins
    simp at hc
  | cons a l ih =>
    rw [List.mapM_cons] at hins
    cases hfa : f a with
    | none =>
      rw [hfa] at hins
      cases hins
    | some b =>
      rw [hfa] at hins
      cases hl : l.mapM f with
      | none =>
        rw [hl] at hins
        cases hins
      | some bs =>
        rw [hl] at hins
        simp only [bind, pure, Option.bind, Option.some.injEq] at hins
        subst hins
        have hqa := hpq a b hfa
        by_cases hpb : p b = true
        · simp only [List.find?, hpb, Option.some.injEq] at hc
          subst hc
          exact ⟨a, by simp [List.find?, ← hqa, hpb], hfa⟩
        · have hpb2 : p b = false := by simpa using hpb
          simp only [List.find?, hpb2] at hc
          obtain ⟨x, hx, hfx⟩ := ih bs hl hc
          exact ⟨x, by simp [List.find?, ← hqa, hpb2, hx], hfx⟩

theorem bodyInputType_of_find (l : List ResourceInput) (r : String) (ri : ResourceInput)
    (h : l.find? (fun ri => !ri.PathParam && ri.QueryParam == "" && ri.Header == "") = some ri) :
    bodyInputType l r = ri.Type_ := by
  induction l with
  | nil => simp at h
  | cons a l ih =>
    by_cases ha : (!a.PathParam && a.QueryParam == "" && a.Header == "") = true
    · simp only [List.find?, ha, Option.some.injEq] at h
      subst h
      simp only [bodyInputType, ha, if_true]
    · have ha2 : (!a.PathParam && a.QueryParam == "" && a.Header == "") = false := by
        simpa using ha
      simp only [List.find?, ha2] at h
      simp only [bodyInputType, ha2, Bool.false_eq_true, if_false]
      exact ih h

/-- Claim C19. For a `PUT` or `POST` resource whose rendered input calls hold a
plain input call, the first such call `c` is the call of the first input that
passes the body-input test (no path parameter, no query-parameter name, no
header name), and the type in that call is the result type in the
resource-declare call.  The test and the dispatch agree on every input: the
call of an input is a plain input call exactly when the input passes the test,
so a path parameter is never taken as the body input. -/
theorem body_input_is_first_plain_call (reg : TypeRegistry) (rez : Resource)
    (hm : rez.Method = "PUT" ∨ rez.Method = "POST") (ins : List String)
    (hins : rez.Inputs.mapM (inputCall reg) = some ins) (c : String)
    (hc : ins.find? isInputCall = some c) :
    (∀ (ri : ResourceInput) (out : String), inputCall reg ri = some out →
        isInputCall out = (!ri.PathParam && ri.QueryParam == "" && ri.Header == ""))
      ∧ ∃ ri : ResourceInput,
          rez.Inputs.find? (fun ri => !ri.PathParam && ri.QueryParam == "" && ri.Header == "")
              = some ri
            ∧ c = chainedCall "input" [goQuote ri.Name, goQuote ri.Type_, goQuote ri.Comment]
            ∧ rTypeName rez = ri.Type_
            ∧ javaGenerateResourceConstructor reg rez
              = ((exceptionSyms rez).mapM (exceptionCall rez)).map (fun excs =>
                  declareCall "resource" [goQuote ri.Type_, goQuote rez.Method, goQuote rez.Path]
                    ++ optionalCall "comment" rez.Comment ++ optionalCall "name" rez.Name
                    ++ String.join ins ++ String.join (rez.Outputs.map outputCall)
                    ++ authCalls rez ++ expectedCall rez ++ String.join excs ++ asyncCall rez
                    ++ ";") := by
  refine ⟨isInputCall_of_inputCall reg, ?_⟩
  obtain ⟨ri, hfind, hfri⟩ := find_of_mapM (inputCall reg) isInputCall
    (fun ri => !ri.PathParam && ri.QueryParam == "" && ri.Header == "")
    (isInputCall_of_inputCall reg) rez.Inputs ins hins c hc
  have hplain := List.find?_some hfind
  have hp : ri.PathParam = false := by
    cases h : ri.PathParam <;> simp_all
  have hq : ri.QueryParam = "" := by
    by_cases h : ri.QueryParam = "" <;> simp_all
  have hh : ri.Header = "" := by
    by_cases h : ri.Header = "" <;> simp_all
  have hname : rTypeName rez = ri.Type_ := by
    unfold rTypeName
    simp only [hm, if_true]
    exact bodyInputType_of_find _ _ ri hfind
  have hcall : c = chainedCall "input" [goQuote ri.Name, goQuote ri.Type_, goQuote ri.Comment] := by
    rw [inputCall_eq] at hfri
    cases hd : inputDefault reg ri with
    | none => simp [hd] at hfri
    | some d =>
      simp only [hd, Option.map_some', Option.some.injEq] at hfri
      rw [← hfri]
      simp [inputText, hp, hq, hh]
  refine ⟨ri, hfind, hcall, hname, ?_⟩
  rw [resource_text_of_syms, hins, resourceDeclare_eq, ← rTypeName_eq, hname]
  rfl

set_option maxRecDepth 100000 in
/-- The resource `PUT /items/{id}`: its first plain input call is the call of
`item`, and its result type is `Item`, not the declared type `Result`. -/
theorem body_input_is_first_plain_call_witness :
    (putResource.Method = "PUT" ∨ putResource.Method = "POST")
      ∧ putResource.Inputs.mapM (inputCall smallRegistry)
        = some (putResource.Inputs.map
            (fun ri => inputText ri ((inputDefault smallRegistry ri).getD "null")))
      ∧ (putResource.Inputs.map
            (fun ri => inputText ri ((inputDefault smallRegistry ri).getD "null"))).find?
          isInputCall = some "\n            .input(\"item\", \"Item\", \"\")"
      ∧ (∃ ri : ResourceInput,
          putResource.Inputs.find?
              (fun ri => !ri.PathParam && ri.QueryParam == "" && ri.Header == "") = some ri
            ∧ "\n            .input(\"item\", \"Item\", \"\")"
              = chainedCall "input" [goQuote ri.Name, goQuote ri.Type_, goQuote ri.Comment]
            ∧ rTypeName putResource = ri.Type_)
      ∧ rTypeName putResource = "Item" :=
  ⟨Or.inl rfl, by decide, by decide,
    Exists.elim
      (body_input_is_first_plain_call smallRegistry putResource (Or.inl rfl)
        (putResource.Inputs.map
          (fun ri => inputText ri ((inputDefault smallRegistry ri).getD "null")))
        (by decide) "\n            .input(\"item\", \"Item\", \"\")" (by decide)).2
      (fun ri hri => ⟨ri, hri.1, hri.2.1, hri.2.2.1⟩),
    by decide⟩

/-! ## The string constructor and the dispatch on the variant -/

/-- Claim C14. The text of a string type is the string-declare call with the
quoted name, then, in this order and each only when present, the comment call
(comment not empty), the pattern call (pattern not empty), the min-size call
and the max-size call (size set), then the terminator.  For the type `Tag`
with only the sizes 1 and 10 it is the declare call of `"Tag"` chained with
`minSize(1)` and `maxSize(10)`. -/
theorem string_constructor_text (t : StringTypeDef) :
    javaGenerateStringTypeConstructor t
        = declareCall "stringType" [goQuote t.Name] ++ optionalCall "comment" t.Comment
          ++ optionalCall "pattern" t.Pattern
          ++ (match t.MinSize with
             | some n => chainedCall "minSize" [fmtInt n]
             | none => "")
          ++ (match t.MaxSize with
             | some n => chainedCall "maxSize" [fmtInt n]
             | none => "")
          ++ ";"
      ∧ javaGenerateStringTypeConstructor tagDef
        = "    sb.stringType(\"Tag\")\n            .minSize(1)\n            .maxSize(10);" := by
  refine ⟨?_, by decide⟩
  simp only [javaGenerateStringTypeConstructor, declareCall, optionalCall, chainedCall,
    builderCall, String.intercalate, String.intercalate.go]
  cases t.MinSize <;> cases t.MaxSize <;> split_ifs <;> simp_all [String.ext_iff]

/-- Claim C17. For a type of the map, array or bytes variant (payload `d`),
`javaGenerateTypeConstructor` returns a comment line: the marker `//`, the note
of the variant and the name of the type, and nothing else; for a type of the
alias variant it returns the empty text. -/
theorem unsupported_variants_are_comments (ext : External) (reg : TypeRegistry) (t : RdlType)
    (d : NamedTypeDef) :
    (t.Variant = .MapTypeDef → t.MapTypeDef = some d →
        javaGenerateTypeConstructor ext reg t
          = some ("    //" ++ "s.type(MapTypeDef) NYI - " ++ d.Name))
      ∧ (t.Variant = .ArrayTypeDef → t.ArrayTypeDef = some d →
        javaGenerateTypeConstructor ext reg t
          = some ("    //" ++ "s.type(ArrayTypeDef) NYI - " ++ d.Name))
      ∧ (t.Variant = .BytesTypeDef → t.BytesTypeDef = some d →
        javaGenerateTypeConstructor ext reg t
          = some ("    //" ++ "s.type(BytesTypeDef) NYI - " ++ d.Name))
      ∧ (t.Variant = .AliasTypeDef → javaGenerateTypeConstructor ext reg t = some "") := by
  refine ⟨?_, ?_, ?_, ?_⟩
  · intro hv hd
    simp [javaGenerateTypeConstructor, hv, hd, String.ext_iff]
  · intro hv hd
    simp [javaGenerateTypeConstructor, hv, hd, String.ext_iff]
  · intro hv hd
    simp [javaGenerateTypeConstructor, hv, hd, String.ext_iff]
  · intro hv
    simp [javaGenerateTypeConstructor, hv]

/-- The types `Dict`, `Row`, `Blob` and `Id`. -/
theorem unsupported_variants_are_comments_witness :
    javaGenerateTypeConstructor plainExternal emptyRegistry dictType
        = some "    //s.type(MapTypeDef) NYI - Dict"
      ∧ javaGenerateTypeConstructor plainExternal emptyRegistry rowType
        = some "    //s.type(ArrayTypeDef) NYI - Row"
      ∧ javaGenerateTypeConstructor plainExternal emptyRegistry blobType
        = some "    //s.type(BytesTypeDef) NYI - Blob"
      ∧ javaGenerateTypeConstructor plainExternal emptyRegistry aliasType = some "" :=
  ⟨((unsupported_variants_are_comments plainExternal emptyRegistry dictType
        { Name := "Dict" }).1 rfl rfl).trans (by decide),
    ((unsupported_variants_are_comments plainExternal emptyRegistry rowType
        { Name := "Row" }).2.1 rfl rfl).trans (by decide),
    ((unsupported_variants_are_comments plainExternal emptyRegistry blobType
        { Name := "Blob" }).2.2.1 rfl rfl).trans (by decide),
    (unsupported_variants_are_comments plainExternal emptyRegistry aliasType
        { Name := "Id" }).2.2.2 rfl⟩

/-! ## Terminator and totality of the type constructors -/

theorem mapM_isSome {α : Type} (f : α → Option String) (l : List α)
    (h : ∀ x ∈ l, (f x).isSome = true) : ∃ ys, l.mapM f = some ys := by
  refine ⟨l.map (fun x => (f x).getD ""), mapM_eq_some_map f _ l ?_⟩
  intro x hx
  have hx2 := h x hx
  cases hf : f x with
  | none => simp [hf] at hx2
  | some y => rfl

theorem numberValueString_isSome (n : Number) (h : numberPresent n = true) :
    ∃ v, numberValueString n = some v := by
  unfold numberPresent at h
  unfold numberValueString
  cases hv : n.Variant <;> simp only [hv] at h ⊢
  · cases hp : n.Int32 with
    | none => simp [hp] at h
    | some i => exact ⟨_, rfl⟩
  · cases hp : n.Int64 with
    | none => simp [hp] at h
    | some i => exact ⟨_, rfl⟩
  · cases hp : n.Float64 with
    | none => simp [hp] at h
    | some i => exact ⟨_, rfl⟩
  · exact ⟨_, rfl⟩

theorem number_isSome (d : NumberTypeDef)
    (h : (d.Min.all numberPresent && d.Max.all numberPresent) = true) :
    ∃ out, javaGenerateNumberTypeConstructor d = some out := by
  unfold javaGenerateNumberTypeConstructor
  simp only [bind, pure]
  rw [Bool.and_eq_true] at h
  cases hmin : d.Min with
  | none =>
    cases hmax : d.Max with
    | none => exact ⟨_, rfl⟩
    | some n2 =>
      have h2 : numberPresent n2 = true := by simpa [hmax] using h.2
      obtain ⟨v2, hv2⟩ := numberValueString_isSome n2 h2
      simp only [hv2, Option.bind, Option.map_some']
      exact ⟨_, rfl⟩
  | some n1 =>
    have h1 : numberPresent n1 = true := by simpa [hmin] using h.1
    obtain ⟨v1, hv1⟩ := numberValueString_isSome n1 h1
    cases hmax : d.Max with
    | none =>
      simp only [hv1, Option.bind, Option.map_some']
      exact ⟨_, rfl⟩
    | some n2 =>
      have h2 : numberPresent n2 = true := by simpa [hmax] using h.2
      obtain ⟨v2, hv2⟩ := numberValueString_isSome n2 h2
      simp only [hv1, hv2, Option.bind, Option.map_some']
      exact ⟨_, rfl⟩

theorem javaLiteralPtr_isSome (t : RdlTypePtr) (v : Value) (h : payloadPresentPtr t = true) :
    (javaLiteralPtr t v).isSome = true := by
  unfold payloadPresentPtr at h
  unfold javaLiteralPtr
  cases hv : t.Variant <;> simp only [hv] at h ⊢ <;> try rfl
  · cases hb : t.BaseType with
    | none => simp [hb] at h
    | some b => cases b <;> rfl
  · cases he : t.EnumTypeDef with
    | none => simp [he] at h
    | some e => rfl

theorem structFieldPtr_isSome (reg : TypeRegistryPtr) (hreg : registryPresentPtr reg)
    (f : StructFieldDef) : (structFieldPtr reg f).isSome = true := by
  unfold structFieldPtr
  split_ifs
  · rfl
  · rfl
  · cases f.Default with
    | none => rfl
    | some d =>
      cases hT : reg.FindType f.Type_ with
      | none => rfl
      | some T =>
        have hl := javaLiteralPtr_isSome T d (hreg _ T hT)
        cases hj : javaLiteralPtr T d with
        | none => simp [hj] at hl
        | some lit => simp [hj, bind, pure]

theorem structPtr_isSome (reg : TypeRegistryPtr) (hreg : registryPresentPtr reg)
    (d : StructTypeDefPtr) (hd : d.Fields.all Option.isSome = true) :
    ∃ out, javaGenerateStructTypeConstructorPtr reg d = some out := by
  unfold javaGenerateStructTypeConstructorPtr
  simp only [foldlM_append_eq_join, bind, pure]
  obtain ⟨fs, hfs⟩ := mapM_isSome (fun f => Option.bind f (structFieldPtr reg)) d.Fields
    (by
      intro f hf
      have hsome : f.isSome = true := (List.all_eq_true.1 hd) f hf
      cases f with
      | none => simp at hsome
      | some f => exact structFieldPtr_isSome reg hreg f)
  rw [hfs]
  exact ⟨_, rfl⟩

theorem enumPtr_isSome (d : EnumTypeDefPtr) (hd : d.Elements.all Option.isSome = true) :
    ∃ out, javaGenerateEnumTypeConstructorPtr d = some out := by
  unfold javaGenerateEnumTypeConstructorPtr
  simp only [foldlM_append_eq_join, bind, pure]
  obtain ⟨es, hes⟩ := mapM_isSome
    (fun e : Option EnumElementDef =>
      e.map (fun e => "\n            .element(" ++ goQuote e.Symbol ++ ")")) d.Elements
    (by
      intro e he
      have hsome : e.isSome = true := (List.all_eq_true.1 hd) e he
      cases e with
      | none => simp at hsome
      | some e => rfl)
  rw [hes]
  exact ⟨_, rfl⟩

theorem typeConstructorPtr_isSome (ext : External) (reg : TypeRegistryPtr) (t : RdlTypePtr)
    (ht : payloadPresentPtr t = true) (hb : boundsPresentPtr t = true)
    (he : elementsPresent t = true) (hreg : registryPresentPtr reg) :
    ∃ out, javaGenerateTypeConstructorPtr ext reg t = some out := by
  unfold payloadPresentPtr at ht
  unfold boundsPresentPtr at hb
  unfold elementsPresent at he
  unfold javaGenerateTypeConstructorPtr
  cases hv : t.Variant <;> simp only [hv] at ht hb he ⊢
  · exact ⟨_, rfl⟩
  · cases hp : t.StructTypeDef with
    | none => simp [hp] at ht
    | some d =>
      simp only [hp, Option.all_some] at he
      exact structPtr_isSome reg hreg d he
  · cases hp : t.MapTypeDef with
    | none => simp [hp] at ht
    | some d => exact ⟨_, rfl⟩
  · cases hp : t.ArrayTypeDef with
    | none => simp [hp] at ht
    | some d => exact ⟨_, rfl⟩
  · cases hp : t.EnumTypeDef with
    | none => simp [hp] at ht
    | some d =>
      simp only [hp, Option.all_some] at he
      exact enumPtr_isSome d he
  · cases hp : t.UnionTypeDef with
    | none => simp [hp] at ht
    | some d => exact ⟨_, rfl⟩
  · cases hp : t.StringTypeDef with
    | none => simp [hp] at ht
    | some d => exact ⟨_, rfl⟩
  · cases hp : t.BytesTypeDef with
    | none => simp [hp] at ht
    | some d => exact ⟨_, rfl⟩
  · cases hp : t.NumberTypeDef with
    | none => simp [hp] at ht
    | some d =>
      simp only [hp] at hb
      exact number_isSome d hb
  · exact ⟨_, rfl⟩
  · exact ⟨_, rfl⟩

theorem javaLiteralPtr_agrees (t : RdlType) (v : Value) :
    javaLiteralPtr (typeToPtr t) v = javaLiteral t v := by
  unfold javaLiteralPtr javaLiteral typeToPtr
  cases hv : t.Variant <;> simp only [hv]
  cases he : t.EnumTypeDef with
  | none => rfl
  | some e => rfl

theorem structFieldPtr_agrees (reg : TypeRegistry) (f : StructFieldDef) :
    structFieldPtr (registryToPtr reg) f = structField reg f := by
  unfold structFieldPtr structField registryToPtr
  split_ifs
  · rfl
  · rfl
  · cases f.Default with
    | none => rfl
    | some d =>
      cases hT : reg.FindType f.Type_ with
      | none => simp [hT]
      | some T => simp [hT, javaLiteralPtr_agrees]

theorem mapM_map_some {α : Type} (f : α → Option String) (l : List α) :
    (l.map some).mapM (fun x => Option.bind x f) = l.mapM f := by
  induction l with
  | nil => rfl
  | cons a l ih =>
    rw [List.map_cons, List.mapM_cons, List.mapM_cons, ih]
    rfl

/-- On a struct without a nil field the two embeddings of the struct
constructor agree. -/
theorem structPtr_agrees (reg : TypeRegistry) (d : StructTypeDef) :
    javaGenerateStructTypeConstructorPtr (registryToPtr reg) (structToPtr d)
      = javaGenerateStructTypeConstructor reg d := by
  unfold javaGenerateStructTypeConstructorPtr javaGenerateStructTypeConstructor structDeclare
    structToPtr
  simp only [foldlM_append_eq_join, bind, pure, mapM_map_some]
  have hf : structFieldPtr (registryToPtr reg) = structField reg :=
    funext (structFieldPtr_agrees reg)
  rw [hf]

/-- On an enum without a nil element the two embeddings of the enum
constructor agree. -/
theorem enumPtr_agrees (d : EnumTypeDef) :
    javaGenerateEnumTypeConstructorPtr (enumToPtr d)
      = some (javaGenerateEnumTypeConstructor d) := by
  unfold javaGenerateEnumTypeConstructorPtr javaGenerateEnumTypeConstructor enumToPtr
  have hm : (d.Elements.map some).mapM
      (fun e : Option EnumElementDef =>
        e.map (fun e => "\n            .element(" ++ goQuote e.Symbol ++ ")"))
      = some (d.Elements.map (fun e => "\n            .element(" ++ goQuote e.Symbol ++ ")")) := by
    have h := mapM_map_some
      (fun e : EnumElementDef => some ("\n            .element(" ++ goQuote e.Symbol ++ ")"))
      d.Elements
    have hfun : (fun x : Option EnumElementDef => Option.bind x
        (fun e : EnumElementDef => some ("\n            .element(" ++ goQuote e.Symbol ++ ")")))
        = (fun e : Option EnumElementDef =>
            e.map (fun e => "\n            .element(" ++ goQuote e.Symbol ++ ")")) := by
      funext x
      cases x <;> rfl
    rw [hfun] at h
    rw [h]
    exact mapM_eq_some_map _ _ _ (fun _ _ => rfl)
  simp only [foldlM_append_eq_join, foldl_append_eq_join, bind, pure, hm]
  rfl

/-- On a type without a nil element in its slices, and with such a registry,
the two embeddings of `javaGenerateTypeConstructor` agree. -/
theorem typeConstructorPtr_agrees (ext : External) (reg : TypeRegistry) (t : RdlType) :
    javaGenerateTypeConstructorPtr ext (registryToPtr reg) (typeToPtr t)
      = javaGenerateTypeConstructor ext reg t := by
  unfold javaGenerateTypeConstructorPtr javaGenerateTypeConstructor typeToPtr
  cases hv : t.Variant <;> simp only [hv] <;> try rfl
  · cases hp : t.StructTypeDef with
    | none => rfl
    | some d => exact structPtr_agrees reg d
  · cases hp : t.EnumTypeDef with
    | none => rfl
    | some d => exact enumPtr_agrees d

theorem stringRegistryPtr_present : registryPresentPtr stringRegistryPtr := by
  intro name T h
  unfold stringRegistryPtr at h
  simp only at h
  split_ifs at h
  simp at h
  subst h
  rfl

theorem emptyRegistryPtr_present : registryPresentPtr emptyRegistryPtr := by
  intro name T h
  simp [emptyRegistryPtr] at h

set_option maxRecDepth 100000 in
/-- Claim C16, as stated, fails.  The tag of each of these types agrees with its
payload, and `javaGenerateTypeConstructor` fails on it: on the number type
`Level`, at the lower bound whose tag `Int32` has no `Int32` payload; on the
struct type `Book`, with a registry that resolves the type of the field `title`
to a base type without its payload; on the struct type `Torn`, at the nil
pointer in its slice of fields; on the enum type `Gap`, at the nil pointer in
its slice of elements. -/
theorem rendering_fails_on_bound :
    (payloadPresentPtr levelTypePtr = true
        ∧ javaGenerateTypeConstructorPtr plainExternal emptyRegistryPtr levelTypePtr = none)
      ∧ (payloadPresentPtr bookTypePtr = true
        ∧ javaGenerateTypeConstructorPtr plainExternal brokenRegistryPtr bookTypePtr = none)
      ∧ (payloadPresentPtr tornTypePtr = true
        ∧ javaGenerateTypeConstructorPtr plainExternal emptyRegistryPtr tornTypePtr = none)
      ∧ (payloadPresentPtr gapTypePtr = true
        ∧ javaGenerateTypeConstructorPtr plainExternal emptyRegistryPtr gapTypePtr = none) := by
  decide

/-- Claim C16, amended. For every type whose tag agrees with its payload (a tag
outside the known ones included), `javaLiteral` returns a text for every value;
and `javaGenerateTypeConstructor` returns a text when, in addition, the slice of
fields of a struct type and the slice of elements of an enum type hold no nil
pointer, the bounds of a number type carry the payload their own tag names, and
every type the registry resolves has a tag that agrees with its payload.  A
returned text is `some`, so no branch of an absent payload or of a nil element
is taken. -/
theorem rendering_total (ext : External) (reg : TypeRegistryPtr) (t : RdlTypePtr) (v : Value)
    (ht : payloadPresentPtr t = true) :
    (∃ lit, javaLiteralPtr t v = some lit)
      ∧ (elementsPresent t = true → boundsPresentPtr t = true → registryPresentPtr reg →
          ∃ out, javaGenerateTypeConstructorPtr ext reg t = some out) := by
  constructor
  · have h := javaLiteralPtr_isSome t v ht
    cases hl : javaLiteralPtr t v with
    | none => simp [hl] at h
    | some lit => exact ⟨lit, rfl⟩
  · intro he hb hreg
    exact typeConstructorPtr_isSome ext reg t ht hb he hreg

set_option maxRecDepth 100000 in
/-- The struct type `Book` with a registry that knows `String`, the enum type
`Color`, and a type of an unknown tag. -/
theorem rendering_total_witness :
    (payloadPresentPtr bookTypePtr = true ∧ elementsPresent bookTypePtr = true
        ∧ boundsPresentPtr bookTypePtr = true ∧ registryPresentPtr stringRegistryPtr
        ∧ (∃ lit, javaLiteralPtr bookTypePtr (.int 5) = some lit)
        ∧ (∃ out, javaGenerateTypeConstructorPtr plainExternal stringRegistryPtr bookTypePtr
            = some out)
        ∧ javaGenerateTypeConstructorPtr plainExternal stringRegistryPtr bookTypePtr
          = some ("    sb.structType(\"Book\")"
              ++ "\n            .field(\"title\", \"String\", false, \"\", \"untitled\");"))
      ∧ (payloadPresentPtr colorTypePtr = true ∧ elementsPresent colorTypePtr = true
        ∧ (∃ lit, javaLiteralPtr colorTypePtr (.str "RED") = some lit)
        ∧ javaLiteralPtr colorTypePtr (.str "RED") = some "Color.RED"
        ∧ (∃ out, javaGenerateTypeConstructorPtr plainExternal emptyRegistryPtr colorTypePtr
            = some out)
        ∧ javaGenerateTypeConstructorPtr plainExternal emptyRegistryPtr colorTypePtr
          = some ("    sb.enumType(\"Color\")"
              ++ "\n            .element(\"RED\")" ++ "\n            .element(\"GREEN\");"))
      ∧ (payloadPresentPtr emptyTypePtr = true
        ∧ (∃ out, javaGenerateTypeConstructorPtr plainExternal emptyRegistryPtr emptyTypePtr
            = some out)) :=
  ⟨⟨rfl, rfl, rfl, stringRegistryPtr_present,
      (rendering_total plainExternal stringRegistryPtr bookTypePtr (.int 5) rfl).1,
      (rendering_total plainExternal stringRegistryPtr bookTypePtr (.int 5) rfl).2 rfl rfl
        stringRegistryPtr_present,
      by decide⟩,
    ⟨rfl, rfl,
      (rendering_total plainExternal emptyRegistryPtr colorTypePtr (.str "RED") rfl).1,
      by decide,
      (rendering_total plainExternal emptyRegistryPtr colorTypePtr (.str "RED") rfl).2 rfl rfl
        emptyRegistryPtr_present,
      by decide⟩,
    ⟨rfl,
      (rendering_total plainExternal emptyRegistryPtr emptyTypePtr (.int 5) rfl).2 rfl rfl
        emptyRegistryPtr_present⟩⟩

/-! ## The schema assembler -/

theorem foldlM_wrapped_eq_join {α : Type} (f : α → Option String) (g : String → String)
    (l : List α) (s : String) :
    l.foldlM (fun s x => (f x).map (fun c => s ++ g c)) s
      = (l.mapM f).map (fun cs => s ++ String.join (cs.map g)) := by
  induction l generalizing s with
  | nil =>
    rw [List.mapM_nil]
    simp [string_join_nil, string_append_empty]
  | cons a l ih =>
    rw [List.mapM_cons, List.foldlM_cons]
    cases h : f a with
    | none => rfl
    | some c =>
      simp only [Option.map_some', Option.bind_eq_bind, Option.some_bind, ih]
      cases l.mapM f <;> simp [string_join_cons, String.append_assoc]

set_option maxRecDepth 100000 in
/-- The text of a schema, the types and the resources failing together. -/
theorem schema_text (ext : External) (schema : Schema) (cName ns banner : String) :
    GenerateSchema ext schema cName ns banner
      = (schema.Types.mapM
            (javaGenerateTypeConstructor ext (ext.NewTypeRegistry schema))).bind (fun types =>
          (schema.Resources.mapM
              (javaGenerateResourceConstructor (ext.NewTypeRegistry schema))).map
            (fun resources =>
              header ext schema ns banner ++ containerPreamble cName schema.Name
                ++ version schema ++ namespaceCall schema ++ comment schema ++ "\n"
                ++ String.join (types.map (fun c => "\n    " ++ c ++ "\n")) ++ "\n"
                ++ String.join (resources.map (fun c => "\n    " ++ c ++ "\n"))
                ++ containerEnd)) := by
  unfold GenerateSchema
  simp only [foldlM_wrapped_eq_join _ (fun c => "\n    " ++ c ++ "\n"), bind, pure]
  cases schema.Types.mapM (javaGenerateTypeConstructor ext (ext.NewTypeRegistry schema)) with
  | none => rfl
  | some types =>
    simp only [Option.map_some', Option.bind]
    cases schema.Resources.mapM
        (javaGenerateResourceConstructor (ext.NewTypeRegistry schema)) with
    | none => rfl
    | some resources =>
      simp [containerPreamble, containerEnd, String.ext_iff]

set_option maxRecDepth 100000 in
/-- Claim C15. The text `GenerateSchema` writes is the header and the container
preamble; the version-set call exactly when the version is present; the
namespace-set call exactly when the namespace is not empty; the comment-set
call exactly when the comment is not empty; the text of the type constructor
of each type, in the order of the schema; the text of the resource constructor
of each resource, in the order of the schema; and the return of the built
schema.  With no resource, no text of a resource constructor is written.  For
the schema `Example` of version 1 with the one string type `Tag` the text holds
`sb.version(1);` and the declare call of `"Tag"` with `minSize(1)` and
`maxSize(10)`. -/
theorem schema_text_in_order (ext : External) (schema : Schema) (cName ns banner : String) :
    GenerateSchema ext schema cName ns banner
        = (schema.Types.mapM
              (javaGenerateTypeConstructor ext (ext.NewTypeRegistry schema))).bind (fun types =>
            (schema.Resources.mapM
                (javaGenerateResourceConstructor (ext.NewTypeRegistry schema))).map
              (fun resources =>
                header ext schema ns banner ++ containerPreamble cName schema.Name
                  ++ (match schema.Version with
                     | some v => schemaCall "version" [fmtInt v]
                     | none => "")
                  ++ (if schema.Namespace = "" then ""
                      else "\n" ++ schemaCall "namespace" [goQuote schema.Namespace])
                  ++ (if schema.Comment = "" then ""
                      else "\n" ++ schemaCall "comment" [goQuote schema.Comment])
                  ++ "\n"
                  ++ String.join (types.map (fun c => "\n    " ++ c ++ "\n")) ++ "\n"
                  ++ String.join (resources.map (fun c => "\n    " ++ c ++ "\n"))
                  ++ containerEnd))
      ∧ GenerateSchema ext { schema with Resources := [] } cName ns banner
        = (schema.Types.mapM
              (javaGenerateTypeConstructor ext
                (ext.NewTypeRegistry { schema with Resources := [] }))).map (fun types =>
            header ext { schema with Resources := [] } ns banner
              ++ containerPreamble cName schema.Name
              ++ (match schema.Version with
                 | some v => schemaCall "version" [fmtInt v]
                 | none => "")
              ++ (if schema.Namespace = "" then ""
                  else "\n" ++ schemaCall "namespace" [goQuote schema.Namespace])
              ++ (if schema.Comment = "" then ""
                  else "\n" ++ schemaCall "comment" [goQuote schema.Comment])
              ++ "\n"
              ++ String.join (types.map (fun c => "\n    " ++ c ++ "\n")) ++ "\n"
              ++ containerEnd)
      ∧ GenerateSchema plainExternal exampleSchema "ExampleSchema" "com.example" "rdl"
        = some ("//\n// This file generated by rdl. Do not modify!\n//\n\n"
            ++ "package com.example;\n"
            ++ "import com.yahoo.rdl.*;\n"
            ++ "\npublic class ExampleSchema \x7b\n\n"
            ++ "    private final static Schema INSTANCE = build();\n"
            ++ "    public static Schema instance() \x7b\n"
            ++ "        return INSTANCE;\n"
            ++ "    \x7d\n\n"
            ++ "    private static Schema build() \x7b\n"
            ++ "        SchemaBuilder sb = new SchemaBuilder(\"Example\");\n"
            ++ "        sb.version(1);\n"
            ++ "\n        sb.stringType(\"Tag\")"
            ++ "\n            .minSize(1)"
            ++ "\n            .maxSize(10);\n"
            ++ "\n"
            ++ "\n\n        return sb.build();\n"
            ++ "    \x7d\n\n\x7d\n") := by
  have hcalls : ∀ sc : Schema,
      version sc ++ namespaceCall sc ++ comment sc
        = (match sc.Version with
           | some v => schemaCall "version" [fmtInt v]
           | none => "")
          ++ (if sc.Namespace = "" then ""
              else "\n" ++ schemaCall "namespace" [goQuote sc.Namespace])
          ++ (if sc.Comment = "" then ""
              else "\n" ++ schemaCall "comment" [goQuote sc.Comment]) := by
    intro sc
    simp only [version, namespaceCall, comment, schemaCall, builderCall, String.intercalate,
      String.intercalate.go]
    cases sc.Version <;> split_ifs <;> simp_all [String.ext_iff]
  refine ⟨?_, ?_, by decide⟩
  · rw [schema_text]
    simp only [String.append_assoc, ← hcalls schema]
  · rw [schema_text]
    cases hm : schema.Types.mapM
        (javaGenerateTypeConstructor ext (ext.NewTypeRegistry { schema with Resources := [] })) with
    | none => rfl
    | some types =>
      simp only [List.mapM_nil, pure, Option.map_some', Option.bind, Option.some.injEq,
        List.map_nil, string_join_nil]
      have h := hcalls { schema with Resources := [] }
      simp only at h
      simp only [String.append_assoc, string_append_empty, ← h]

end JavaSchema
